import Mathlib

/-!
Verification of `pydevd_suspended_frames.py` (the suspended-execution state
registry of the ptvsd debugger backend).

The Python module is shallowly embedded: Python dicts become association
lists preserving insertion order, object identity (`id(...)`) becomes an
explicit `ident : Nat` carried by every value and frame, the mutable
tracker/manager objects become explicit state records threaded through the
operations, and code paths that can raise become `Except`/`Option` results.
Variable-node objects additionally carry a `nodeId` allocated from a counter
in the owning tracker; this models Python object identity of the node
objects themselves (two nodes created by two constructor calls are distinct
objects even when their fields coincide).
-/

/-! ## Python dictionaries as insertion-ordered association lists -/

/-- Lookup in a Python dict (`d.get(k)`; `d[k]` when combined with an
explicit `Except` at the call site). -/
def dlookup {κ α : Type} [DecidableEq κ] : List (κ × α) → κ → Option α
  | [], _ => none
  | (k', v) :: rest, k => if k = k' then some v else dlookup rest k

/-- Assignment `d[k] = v`: updates in place (Python dicts keep the original
position of an updated key) or appends a new key at the end. -/
def dinsert {κ α : Type} [DecidableEq κ] : List (κ × α) → κ → α → List (κ × α)
  | [], k, v => [(k, v)]
  | (k', v') :: rest, k, v =>
    if k = k' then (k, v) :: rest else (k', v') :: dinsert rest k v

/-- Removal `d.pop(k, None)`: removes the key if present, never fails. -/
def dremove {κ α : Type} [DecidableEq κ] : List (κ × α) → κ → List (κ × α)
  | [], _ => []
  | (k', v') :: rest, k =>
    if k = k' then rest else (k', v') :: dremove rest k

/-- Removal `del d[k]`: `none` models the `KeyError` raised when the key is
absent. -/
def ddelete {κ α : Type} [DecidableEq κ] : List (κ × α) → κ → Option (List (κ × α))
  | [], _ => none
  | (k', v') :: rest, k =>
    if k = k' then some rest
    else (ddelete rest k).map (fun rest' => (k', v') :: rest')

/-! ## Strings: executable character-level helpers

Core `String.startsWith`/`String.endsWith` and `String <` do not reduce in
the kernel, so prefix/suffix tests and ordering are implemented over
`String.data`. -/

/-- Check that the first character list begins with the second. -/
def charsBegins : List Char → List Char → Bool
  | _, [] => true
  | [], _ :: _ => false
  | c :: cs, d :: ds => c == d && charsBegins cs ds

/-- Check that the first character list ends with the second. -/
def charsEnds (l suf : List Char) : Bool :=
  charsBegins l.reverse suf.reverse

/-- Lexicographic order on character lists by code point, the order Python
uses to compare strings. -/
def charsLe : List Char → List Char → Bool
  | [], _ => true
  | _ :: _, [] => false
  | c :: cs, d :: ds =>
    if c.toNat < d.toNat then true
    else if d.toNat < c.toNat then false
    else charsLe cs ds

/-- Python string comparison `s1 <= s2`. -/
def strLe (a b : String) : Bool := charsLe a.data b.data

/-- Stable insertion of an element into a list sorted by `le`: the element
goes before the first entry it does not come strictly after.  Used to model
Python's stable `list.sort(key=...)`. -/
def stableInsert {α : Type} (le : α → α → Bool) (x : α) : List α → List α
  | [] => [x]
  | y :: ys => if le x y then x :: y :: ys else y :: stableInsert le x ys

/-- Stable sort modelling Python's `list.sort(key=...)` (Python's sort is
stable; any stable sort by the same key yields the same list). -/
def stableSort {α : Type} (le : α → α → Bool) : List α → List α
  | [] => []
  | x :: xs => stableInsert le x (stableSort le xs)

/-! ## Values, frames and variable nodes -/

/-- An inspectable Python value.  `ident` models `id(value)` (object
identity), `typeName` and `str` model the externally-rendered type name and
string form, and a `container` additionally carries the dictionary of
children its resolver enumerates. -/
inductive PyVal where
  | atom (ident : Nat) (typeName : String) (str : String)
  | container (ident : Nat) (typeName : String) (str : String)
      (entries : List (String × PyVal))

/-- Python `id(value)`. -/
def PyVal.ident : PyVal → Nat
  | .atom i _ _ => i
  | .container i _ _ _ => i

/-- Modelled from the spec: `dict_iter_items` is imported from
`pydevd_constants` (outside src).  It iterates the items of a dict; it is
only ever applied to the synthetic return-values binding, which is always a
dict, so a non-container value yields no items. -/
def PyVal.dictItems : PyVal → List (String × PyVal)
  | .atom _ _ _ => []
  | .container _ _ _ entries => entries

/-- A stack frame: `ident` models `id(frame)`, `coName` models
`frame.f_code.co_name`, `fLocals` models `frame.f_locals` and `fBack` is the
caller link `frame.f_back`. -/
inductive Frame where
  | mk (ident : Nat) (coName : String) (fLocals : List (String × PyVal))
      (fBack : Option Frame)

/-- Python `id(frame)`. -/
def Frame.ident : Frame → Nat
  | .mk i _ _ _ => i

/-- The code-object name `frame.f_code.co_name`. -/
def Frame.coName : Frame → String
  | .mk _ n _ _ => n

/-- The local bindings `frame.f_locals`. -/
def Frame.fLocals : Frame → List (String × PyVal)
  | .mk _ _ l _ => l

/-- The caller link `frame.f_back`. -/
def Frame.fBack : Frame → Option Frame
  | .mk _ _ _ b => b

/-- The chain of frames obtained by following `f_back` from a frame until it
is exhausted, the walk performed by the `while frame is not None` loop in
`_FramesTracker.track`. -/
def frameChain : Frame → List Frame
  | .mk i n l none => [Frame.mk i n l none]
  | .mk i n l (some g) => Frame.mk i n l (some g) :: frameChain g

/-- The value wrapped by a variable node: `_ObjectVariable` wraps an
inspectable value, `_FrameVariable` wraps a frame (its `self.value` is the
frame object). -/
inductive Val where
  | pv (v : PyVal)
  | fr (f : Frame)

/-- Python `id(self.value)` for a variable node's wrapped value. -/
def Val.ident : Val → Nat
  | .pv v => v.ident
  | .fr f => f.ident

/-- A variable node (`_ObjectVariable` / `_FrameVariable`).  `nodeId` models
the Python object identity of the node itself (fresh per constructor call);
the remaining fields are the instance attributes set by the constructors. -/
structure Variable where
  nodeId : Nat
  name : String
  value : Val
  evaluate_name : Option String
  is_return_value : Bool

/-- Source `_AbstractVariable.get_variable_reference`: the handle of a node
is `id(self.value)`, the identity of the wrapped value. -/
def Variable.get_variable_reference (self : Variable) : Nat :=
  self.value.ident

/-- Format options accepted at the variable-listing boundary
(`fmt` dict with keys `hex` and `rawString`). -/
structure Fmt where
  hex : Bool
  rawString : Bool

/-- Modelled from the spec: `get_variable_details` (from `pydevd_xml`,
outside src) is the external value-formatting service.  It returns the type
name, whether a resolver exists (i.e. the value is a container) and the
rendered string; these are read off the embedded value.  Frames have a
resolver in pydevd, so a frame counts as a container. -/
def get_variable_details : Val → String × Bool × String
  | .pv (.atom _ t s) => (t, false, s)
  | .pv (.container _ t s _) => (t, true, s)
  | .fr f => ("frame", true, f.coName)

/-- The rendered protocol data produced by `get_var_data`.  An empty
`attributes` list models the absence of the `presentationHint` key (the
source only adds `presentationHint` when at least one attribute applies). -/
structure VarData where
  name : String
  value : String
  type : String
  evaluateName : Option String
  variablesReference : Option Nat
  attributes : List String

/-- Source `_AbstractVariable.get_var_data`.  The `fmt`-dependent rendering
(hex / raw string) happens inside the external `SafeRepr`, so the rendered
string is not changed by `fmt` in this model. -/
def Variable.get_var_data (self : Variable) (_fmt : Option Fmt) : VarData :=
  let details := get_variable_details self.value
  let type_name := details.1
  let has_resolver := details.2.1
  let value := details.2.2
  let is_raw_string :=
    type_name = "str" ∨ type_name = "unicode" ∨ type_name = "bytes" ∨
      type_name = "bytearray"
  let attributes : List String := if is_raw_string then ["rawString"] else []
  let attributes :=
    if self.is_return_value then attributes ++ ["readOnly"] else attributes
  let name :=
    if self.is_return_value then "(return) " ++ self.name else self.name
  { name := name
    value := value
    type := type_name
    evaluateName := self.evaluate_name
    variablesReference :=
      if has_resolver then some self.get_variable_reference else none
    attributes := attributes }

/-- Modelled from the spec: `pydevd_resolver.sorted_attributes_key` (outside
src) produces the sort key for attribute names: normal names sort before
underscore-special names, each group alphabetically, with single-underscore
names before double-underscore names and dunder names last (the spec's
example order is `a, b, _x, __y__`). -/
def sorted_attributes_key (name : String) : Nat × String :=
  if charsBegins name.data ['_', '_'] then
    (if charsEnds name.data ['_', '_'] then (3, name) else (2, name))
  else if charsBegins name.data ['_'] then (1, name)
  else (0, name)

/-- Comparison of two attribute-sort keys, Python's tuple order
`(group, name)`. -/
def attrKeyLe (a b : Nat × String) : Bool :=
  if a.1 < b.1 then true
  else if b.1 < a.1 then false
  else strLe a.2 b.2

/-- Order on container entries by `sorted_attributes_key` of the key, used
by the default-resolver branch of `_ObjectVariable.get_children_variables`. -/
def entryLe (a b : String × PyVal) : Bool :=
  attrKeyLe (sorted_attributes_key a.1) (sorted_attributes_key b.1)

/-- Source `sorted_variables_key`: sort variable nodes by
`sorted_attributes_key` of their name. -/
def sorted_variables_key (obj : Variable) : Nat × String :=
  sorted_attributes_key obj.name

/-- Order on variable nodes via `sorted_variables_key`. -/
def varLe (a b : Variable) : Bool :=
  attrKeyLe (sorted_variables_key a) (sorted_variables_key b)

/-- Modelled from the spec: `RETURN_VALUES_DICT` (from `pydevd_constants`,
outside src) is the key of the synthetic return-values binding in a frame's
locals; its exact text is immaterial to the behaviour modelled here. -/
def RETURN_VALUES_DICT : String := "__pydevd_ret_val_dict"

/-- Python `repr` of a string, as used by the `'%s[%r]'` format: the text in
single quotes (escaping is not modelled; the names used here contain no
quotes). -/
def pyReprStr (s : String) : String := "'" ++ s ++ "'"

/-- Python truthiness of an optional string (`if parent_evaluate_name:`):
`None` and the empty string are falsy. -/
def pyTruthy : Option String → Bool
  | none => false
  | some s => !(s == "")

/-! ## The frames tracker (`_FramesTracker`) and the registry
(`SuspendedFramesManager`)

One `World` value holds the manager's state together with every tracker
object, addressed by a tracker id (Python holds the tracker objects by
reference; the id stands for the reference).  Tracker methods that in Python
mutate both the tracker and the back-referenced manager become functions
`World → ... → World`. -/

/-- State of one `_FramesTracker`.  `nextNodeId` is the model's allocation
counter for variable-node object identity (not a Python attribute). -/
structure FramesTracker where
  frame_id_to_frame : List (Nat × Frame)
  frame_id_to_main_thread_id : List (Nat × String)
  thread_id_to_frame_ids : List (String × List Nat)
  frame_id_to_lineno : List (Nat × Nat)
  main_thread_id : Option String
  untracked : Bool
  variable_reference_to_variable : List (Nat × Variable)
  nextNodeId : Nat

/-- A freshly constructed tracker (`_FramesTracker.__init__`; the `py_db`
collaborator is only used by `create_thread_suspend_command`, which is not
modelled). -/
def FramesTracker.init : FramesTracker :=
  { frame_id_to_frame := []
    frame_id_to_main_thread_id := []
    thread_id_to_frame_ids := []
    frame_id_to_lineno := []
    main_thread_id := none
    untracked := false
    variable_reference_to_variable := []
    nextNodeId := 0 }

/-- Construction of an `_ObjectVariable`: sets the instance attributes and
self-registers into the owning tracker under `get_variable_reference()`
(source `_FramesTracker._register_variable`). -/
def mkObjectVariable (tr : FramesTracker) (name : String) (value : Val)
    (is_return_value : Bool) (evaluate_name : Option String) :
    Variable × FramesTracker :=
  let var : Variable :=
    { nodeId := tr.nextNodeId
      name := name
      value := value
      evaluate_name := evaluate_name
      is_return_value := is_return_value }
  (var,
    { tr with
      variable_reference_to_variable :=
        dinsert tr.variable_reference_to_variable
          var.get_variable_reference var
      nextNodeId := tr.nextNodeId + 1 })

/-- Construction of a `_FrameVariable`: wraps a frame (name = the frame's
code name, value = the frame itself) and self-registers.  The source never
sets `_is_return_value` on a `_FrameVariable`; it behaves as not a return
value. -/
def mkFrameVariable (tr : FramesTracker) (frame : Frame) :
    Variable × FramesTracker :=
  let var : Variable :=
    { nodeId := tr.nextNodeId
      name := frame.coName
      value := .fr frame
      evaluate_name := none
      is_return_value := false }
  (var,
    { tr with
      variable_reference_to_variable :=
        dinsert tr.variable_reference_to_variable
          var.get_variable_reference var
      nextNodeId := tr.nextNodeId + 1 })

/-- Source `_FramesTracker.obtain_as_variable`: default the evaluate name to
the name, then return the node already registered for `id(value)` if any,
else construct (and thereby register) a fresh `_ObjectVariable`. -/
def FramesTracker.obtain_as_variable (tr : FramesTracker) (name : String)
    (value : PyVal) (evaluate_name : Option String) :
    Variable × FramesTracker :=
  let evaluate_name := match evaluate_name with
    | none => name
    | some e => e
  let variable_reference := value.ident
  match dlookup tr.variable_reference_to_variable variable_reference with
  | some var => (var, tr)
  | none => mkObjectVariable tr name (.pv value) false (some evaluate_name)

/-- Source `_FramesTracker.get_variable`: a plain dict lookup; `none` models
the `KeyError` it lets escape. -/
def FramesTracker.get_variable (tr : FramesTracker)
    (variable_reference : Nat) : Option Variable :=
  dlookup tr.variable_reference_to_variable variable_reference

/-- Body of the `for key, val in dict_items(self.frame.f_locals)` loop of
`_FrameVariable.get_children_variables`, return-values branch: one
`_ObjectVariable` per item of the synthetic dict, flagged as a return value,
with evaluable path `'%s[%r]' % (key, return_key)`. -/
def returnValuesLoop (tr : FramesTracker) (key : String) :
    List (String × PyVal) → List Variable × FramesTracker
  | [] => ([], tr)
  | (return_key, return_value) :: rest =>
    let res := mkObjectVariable tr return_key (.pv return_value) true
      (some (key ++ "[" ++ pyReprStr return_key ++ "]"))
    let rec_res := returnValuesLoop res.2 key rest
    (res.1 :: rec_res.1, rec_res.2)

/-- The locals loop of `_FrameVariable.get_children_variables`: the
synthetic return-values binding is unpacked via `returnValuesLoop`; every
other local becomes one `_ObjectVariable` with itself as evaluable path. -/
def frameLocalsLoop (tr : FramesTracker) :
    List (String × PyVal) → List Variable × FramesTracker
  | [] => ([], tr)
  | (key, val) :: rest =>
    if key = RETURN_VALUES_DICT then
      let res := returnValuesLoop tr key val.dictItems
      let rec_res := frameLocalsLoop res.2 rest
      (res.1 ++ rec_res.1, rec_res.2)
    else
      let res := mkObjectVariable tr key (.pv val) false (some key)
      let rec_res := frameLocalsLoop res.2 rest
      (res.1 :: rec_res.1, rec_res.2)

/-- Source `_FrameVariable.get_children_variables`: materialize the locals
(unpacking the synthetic return-values binding) and sort the resulting
nodes by `sorted_variables_key` (frame variables are always sorted).  The
`fmt` argument is accepted and unused, as in the source. -/
def FrameVariable.get_children_variables (frame : Frame)
    (tr : FramesTracker) (_fmt : Option Fmt) :
    List Variable × FramesTracker :=
  let res := frameLocalsLoop tr frame.fLocals
  (stableSort varLe res.1, res.2)

/-- Body of the children loop of `_ObjectVariable.get_children_variables`.
With the default dictionary resolver every evaluate-name suffix is `none`,
so both branches of the `parent_evaluate_name` test construct the child
without an evaluable path; a literal suffix would be appended to the
parent's path (the callable-suffix form is external resolver behaviour and
does not arise with the modelled resolver). -/
def objectChildrenLoop (tr : FramesTracker)
    (parent_evaluate_name : Option String) :
    List (String × PyVal × Option String) → List Variable × FramesTracker
  | [] => ([], tr)
  | (key, val, suffix) :: rest =>
    let evaluate_name : Option String :=
      if pyTruthy parent_evaluate_name then
        match suffix with
        | some s =>
          some ((match parent_evaluate_name with
                 | some p => p
                 | none => "") ++ s)
        | none => none
      else none
    let res := mkObjectVariable tr key (.pv val) false evaluate_name
    let rec_res := objectChildrenLoop res.2 parent_evaluate_name rest
    (res.1 :: rec_res.1, rec_res.2)

/-- Source `_ObjectVariable.get_children_variables`.  A non-container value
has no resolver and yields no children.  For a container the default
dictionary resolver is modelled (resolvers live outside src): the entries
are sorted by `sorted_attributes_key` and carry no evaluate-name suffix.
A `_ObjectVariable` never wraps a frame, so the `.fr` case is unreachable
and yields no children.  Each call recomputes the children, constructing
(and re-registering) fresh node objects. -/
def ObjectVariable.get_children_variables (self : Variable)
    (tr : FramesTracker) (fmt : Option Fmt) :
    List Variable × FramesTracker :=
  match self.value with
  | .fr _ => ([], tr)
  | .pv (.atom _ _ _) => ([], tr)
  | .pv (.container _ _ _ entries) =>
    let _ := fmt
    let lst := (stableSort entryLe entries).map
      (fun p => (p.1, p.2, (none : Option String)))
    objectChildrenLoop tr self.evaluate_name lst

/-- The whole-world state: the `SuspendedFramesManager` fields plus the heap
of tracker objects addressed by tracker id. -/
structure World where
  thread_id_to_fake_frames : List (String × List (Nat × Frame))
  thread_id_to_tracker : List (String × Nat)
  variable_reference_to_frames_tracker : List (Nat × Nat)
  trackers : List (Nat × FramesTracker)

/-- A freshly constructed `SuspendedFramesManager` with no trackers. -/
def World.init : World :=
  { thread_id_to_fake_frames := []
    thread_id_to_tracker := []
    variable_reference_to_frames_tracker := []
    trackers := [] }

/-- Dereference a tracker id (Python follows an object reference, which
never dangles; a dangling id yields a fresh tracker so that the functions
stay total). -/
def World.tracker (w : World) (trid : Nat) : FramesTracker :=
  match dlookup w.trackers trid with
  | some tr => tr
  | none => FramesTracker.init

/-- Apply an update to one tracker object in the world. -/
def World.updTracker (w : World) (trid : Nat)
    (f : FramesTracker → FramesTracker) : World :=
  { w with trackers := dinsert w.trackers trid (f (w.tracker trid)) }

/-- Body of the `while frame is not None` loop of `_FramesTracker.track`:
for each frame of the chain, record it under its id, construct a
`_FrameVariable` (instancing is enough to register it), point the manager's
handle index at this tracker, append the frame id to the effective thread's
list and record the originating real thread id. -/
def trackLoop (trid : Nat) (thread_id : String) (effective : String) :
    World → List Frame → World
  | w, [] => w
  | w, f :: rest =>
    let frame_id := f.ident
    let w := w.updTracker trid (fun tr =>
      { tr with frame_id_to_frame := dinsert tr.frame_id_to_frame frame_id f })
    let w := w.updTracker trid (fun tr => (mkFrameVariable tr f).2)
    let w := { w with
      variable_reference_to_frames_tracker :=
        dinsert w.variable_reference_to_frames_tracker frame_id trid }
    let w := w.updTracker trid (fun tr =>
      { tr with thread_id_to_frame_ids :=
          (dinsert tr.thread_id_to_frame_ids effective
            ((dlookup tr.thread_id_to_frame_ids effective).getD []
              ++ [frame_id])) })
    let w := w.updTracker trid (fun tr =>
      { tr with frame_id_to_main_thread_id :=
          dinsert tr.frame_id_to_main_thread_id frame_id thread_id })
    trackLoop trid thread_id effective w rest

/-- Source `_FramesTracker.track`: register this tracker in the manager
under the effective id (`frame_custom_thread_id or thread_id`), record the
main thread id and the line-override map, then walk the frame chain.  The
double-track warning written to stderr is non-fatal and not modelled.  The
`setdefault` of the frame-id list is modelled by the `getD []` in the loop
(the chain of a real frame is never empty). -/
def FramesTracker.track (w : World) (trid : Nat) (thread_id : String)
    (frame : Frame) (frame_id_to_lineno : List (Nat × Nat))
    (frame_custom_thread_id : Option String) : World :=
  let coroutine_or_main_thread_id := match frame_custom_thread_id with
    | some c => c
    | none => thread_id
  let w := { w with
    thread_id_to_tracker :=
      dinsert w.thread_id_to_tracker coroutine_or_main_thread_id trid }
  let w := w.updTracker trid (fun tr =>
    { tr with
      main_thread_id := some thread_id
      frame_id_to_lineno := frame_id_to_lineno })
  trackLoop trid thread_id coroutine_or_main_thread_id w (frameChain frame)

/-- The `for thread_id in self._thread_id_to_frame_ids` loop of
`untrack_all`: `pop(thread_id, None)` on the manager's tracker map, which
never fails. -/
def popAll : List (String × Nat) → List String → List (String × Nat)
  | m, [] => m
  | m, k :: ks => popAll (dremove m k) ks

/-- The `for frame_id in self._frame_id_to_frame` loop of `untrack_all`:
`del` on the manager's handle index, which raises `KeyError` (modelled as
`none`) when a frame id is absent. -/
def delAll : List (Nat × Nat) → List Nat → Option (List (Nat × Nat))
  | m, [] => some m
  | m, k :: ks =>
    match ddelete m k with
    | none => none
    | some m' => delAll m' ks

/-- Source `_FramesTracker.untrack_all`: a second call returns at the
`_untracked` guard; the first call pops every thread id this tracker holds
from the manager's tracker map, deletes every frame id it holds from the
manager's handle index, clears all internal tables, forgets the main thread
id and drops the manager back-reference (modelled by the `untracked` flag).
`.error ()` models the `KeyError` a missing index entry would raise; the
partially mutated state of that (unreachable) path is not retained. -/
def FramesTracker.untrack_all (w : World) (trid : Nat) : Except Unit World :=
  let tr := w.tracker trid
  if tr.untracked then .ok w
  else
    let w1 := { w with
      thread_id_to_tracker :=
        popAll w.thread_id_to_tracker (tr.thread_id_to_frame_ids.map Prod.fst) }
    match delAll w1.variable_reference_to_frames_tracker
        (tr.frame_id_to_frame.map Prod.fst) with
    | none => .error ()
    | some idx =>
      .ok { w1 with
        variable_reference_to_frames_tracker := idx
        trackers := dinsert w1.trackers trid
          { frame_id_to_frame := []
            frame_id_to_main_thread_id := []
            thread_id_to_frame_ids := []
            frame_id_to_lineno := []
            main_thread_id := none
            untracked := true
            variable_reference_to_variable := []
            nextNodeId := tr.nextNodeId } }

/-- The world after `untrack_all` when it succeeds (the success is asserted
separately via `isOk`). -/
def untrackResult (w : World) (trid : Nat) : World :=
  match FramesTracker.untrack_all w trid with
  | .ok w' => w'
  | .error _ => w

/-- Source `_FramesTracker.get_topmost_frame_and_frame_id_to_line`: for a
known thread id, the frame of the first (topmost) recorded frame id together
with the line-override map; `ok none` for an unknown id (the implicit
`return None`).  `.error ()` models the `IndexError`/`KeyError` of the
(unreachable) states where the list is empty or the frame id dangles. -/
def FramesTracker.get_topmost_frame_and_frame_id_to_line (tr : FramesTracker)
    (thread_id : String) : Except Unit (Option (Frame × List (Nat × Nat))) :=
  match dlookup tr.thread_id_to_frame_ids thread_id with
  | none => .ok none
  | some [] => .error ()
  | some (frame_id :: _) =>
    match dlookup tr.frame_id_to_frame frame_id with
    | none => .error ()
    | some frame => .ok (some (frame, tr.frame_id_to_lineno))

/-- Source `_FramesTracker.find_frame`: a plain lookup in the tracker's
frame table (`dict.get`, no failure). -/
def FramesTracker.find_frame (tr : FramesTracker) (_thread_id : String)
    (frame_id : Nat) : Option Frame :=
  dlookup tr.frame_id_to_frame frame_id

/-- The fallback scan of `_get_tracker_for_variable_reference`: iterate the
manager's tracker map in insertion order and return the first tracker whose
`get_variable` does not raise. -/
def scanTrackers (w : World) (variable_reference : Nat) :
    List (String × Nat) → Option Nat
  | [] => none
  | (_, trid) :: rest =>
    match (w.tracker trid).get_variable variable_reference with
    | some _ => some trid
    | none => scanTrackers w variable_reference rest

/-- Source `SuspendedFramesManager._get_tracker_for_variable_reference`:
the direct handle index first, then the defensive scan across all active
trackers; `none` when no tracker holds the handle. -/
def SuspendedFramesManager._get_tracker_for_variable_reference (w : World)
    (variable_reference : Nat) : Option Nat :=
  match dlookup w.variable_reference_to_frames_tracker variable_reference with
  | some trid => some trid
  | none => scanTrackers w variable_reference w.thread_id_to_tracker

/-- Source `SuspendedFramesManager.get_thread_id_for_variable_reference`:
the owning tracker's main thread id, or `none` if the tracker is gone. -/
def SuspendedFramesManager.get_thread_id_for_variable_reference (w : World)
    (variable_reference : Nat) : Option String :=
  match SuspendedFramesManager._get_tracker_for_variable_reference w
      variable_reference with
  | some trid => (w.tracker trid).main_thread_id
  | none => none

/-- Source `SuspendedFramesManager.get_variable`: `KeyError` (modelled as
`error`) when no tracker owns the handle; otherwise the owning tracker's
lookup, whose own `KeyError` propagates. -/
def SuspendedFramesManager.get_variable (w : World)
    (variable_reference : Nat) : Except Unit Variable :=
  match SuspendedFramesManager._get_tracker_for_variable_reference w
      variable_reference with
  | none => .error ()
  | some trid =>
    match (w.tracker trid).get_variable variable_reference with
    | none => .error ()
    | some var => .ok var

/-- Source `SuspendedFramesManager.add_fake_frame`: register a fabricated
frame under `int(frame_id)` in the per-thread table. -/
def SuspendedFramesManager.add_fake_frame (w : World) (thread_id : String)
    (frame_id : Nat) (frame : Frame) : World :=
  let fake_frames := (dlookup w.thread_id_to_fake_frames thread_id).getD []
  { w with
    thread_id_to_fake_frames :=
      dinsert w.thread_id_to_fake_frames thread_id
        (dinsert fake_frames frame_id frame) }

/-- The `frame_id` argument of `SuspendedFramesManager.find_frame` as it
arrives from the wire: the literal wildcard `"*"`, a numeric id, or a string
`int()` cannot parse (whose `ValueError` the bare `except` catches). -/
inductive FrameIdArg where
  | star
  | num (n : Nat)
  | malformed

/-- Delegation step of `SuspendedFramesManager.find_frame`: the thread's
tracker, if any, resolves the frame id; `if frame is not None: return frame`
followed by `return None` collapses to the lookup result. -/
def findFrameViaTracker (w : World) (thread_id : String) (frame_id : Nat) :
    Option Frame :=
  match dlookup w.thread_id_to_tracker thread_id with
  | some trid => (w.tracker trid).find_frame thread_id frame_id
  | none => none

/-- Source `SuspendedFramesManager.find_frame`: in order, the wildcard id
`"*"` (resolved to the currently executing frame, supplied here as
`current_frame` in place of the external `get_frame()`), the fabricated
frames table for the thread, then delegation to the thread's tracker; the
bare `except` turns any lookup fault (here: the unparsable id) into `None`
instead of propagating. -/
def SuspendedFramesManager.find_frame (w : World) (current_frame : Frame)
    (thread_id : String) (frame_id : FrameIdArg) : Option Frame :=
  match frame_id with
  | .star => some current_frame
  | .malformed => none
  | .num fid =>
    match dlookup w.thread_id_to_fake_frames thread_id with
    | some fake_frames =>
      (match dlookup fake_frames fid with
       | some frame => some frame
       | none => findFrameViaTracker w thread_id fid)
    | none => findFrameViaTracker w thread_id fid

/-! ## Well-formedness predicates -/

/-- Registration well-formedness of a tracker's handle table: every node is
registered under its own `get_variable_reference` (the key
`_register_variable` always uses). -/
def RegWF (tr : FramesTracker) : Prop :=
  ∀ p ∈ tr.variable_reference_to_variable,
    p.2.get_variable_reference = p.1

/-- Does tracker `trid` hold frame id `h` in its `_frame_id_to_frame`
table? -/
def trackerHasFrame (w : World) (trid h : Nat) : Bool :=
  (dlookup (w.tracker trid).frame_id_to_frame h).isSome

/-- The shared-index invariant: the keys of each tracker's
`_frame_id_to_frame` table are exactly the frame ids the manager's
`_variable_reference_to_frames_tracker` index maps to that tracker
(`track` inserts into both together, `untrack_all` deletes each of its
frame ids from the index without a missing-key guard).  The `Nodup`
conjuncts record that the association lists model Python dicts, whose keys
are unique. -/
def TrackerIndexInv (w : World) : Prop :=
  (w.variable_reference_to_frames_tracker.map Prod.fst).Nodup
  ∧ (w.trackers.map Prod.fst).Nodup
  ∧ (∀ p ∈ w.variable_reference_to_frames_tracker,
      trackerHasFrame w p.2 p.1 = true)
  ∧ (∀ q ∈ w.trackers, ∀ r ∈ q.2.frame_id_to_frame,
      dlookup w.variable_reference_to_frames_tracker r.1 = some q.1)
  ∧ (∀ q ∈ w.trackers, (q.2.frame_id_to_frame.map Prod.fst).Nodup)

instance instDecTrackerIndexInv (w : World) :
    Decidable (TrackerIndexInv w) := by
  unfold TrackerIndexInv
  infer_instance

/-! ## Concrete fixtures used by counterexamples and witnesses -/

/-- A concrete leaf frame. -/
def frameA : Frame := .mk 11 "f" [] none

/-- A second concrete leaf frame with a different identity. -/
def frameB : Frame := .mk 12 "g" [] none

/-- A concrete value whose identity is 100. -/
def valX : PyVal := .atom 100 "int" "42"

/-- A session: thread `T1` suspended at `frameA`, tracked by tracker 1. -/
def wA : World := FramesTracker.track World.init 1 "T1" frameA [] none

/-- The same session after the value `valX` has been obtained as a
variable (registering handle 100 in tracker 1). -/
def wB : World :=
  wA.updTracker 1 (fun tr => (tr.obtain_as_variable "x" valX none).2)

/-- The world after session 1 has been closed. -/
def wC : World := untrackResult wB 1

/-- A later session: thread `T2` suspended at `frameB`, tracked by
tracker 2. -/
def wD : World := FramesTracker.track wC 2 "T2" frameB [] none

/-- The later session after obtaining a (different) value whose identity is
numerically the same 100 — modelling Python reusing a freed address. -/
def wE : World :=
  wD.updTracker 2
    (fun tr => (tr.obtain_as_variable "y" (.atom 100 "str" "s") none).2)

/-- A concrete one-entry container value. -/
def contC : PyVal := .container 20 "dict" "d" [("a", .atom 3 "int" "1")]

/-- A node wrapping `contC`, constructed from a fresh tracker. -/
def selfC : Variable :=
  (mkObjectVariable FramesTracker.init "c" (.pv contC) false (some "c")).1

/-- The tracker state after constructing `selfC`. -/
def trC : FramesTracker :=
  (mkObjectVariable FramesTracker.init "c" (.pv contC) false (some "c")).2

/-- A frame whose locals hold the synthetic return-values binding
`{"foo": 42}`. -/
def retFrame : Frame :=
  .mk 31 "fn"
    [(RETURN_VALUES_DICT, .container 50 "dict" "d" [("foo", .atom 42 "int" "42")])]
    none

/-- A tracker in which a node named `orig` is registered for identity 7. -/
def trOrig : FramesTracker :=
  (mkObjectVariable FramesTracker.init "orig" (.pv (.atom 7 "int" "1")) false
    (some "orig")).2

/-- A two-frame chain: `top` with caller `caller`. -/
def chainFrame : Frame := .mk 61 "top" [] (some (.mk 62 "caller" [] none))

/-- The session world `wA` with a fabricated frame registered for thread
`T1` under the same numeric id 11 that the tracker also holds. -/
def w8 : World :=
  SuspendedFramesManager.add_fake_frame wA "T1" 11 (.mk 99 "fake" [] none)

/-- The node registered in `trOrig` (named `orig`, identity 7). -/
def varOrig : Variable :=
  (mkObjectVariable FramesTracker.init "orig" (.pv (.atom 7 "int" "1")) false
    (some "orig")).1

/-- A frame standing for the currently executing frame returned by the
external `get_frame()`. -/
def curFrame : Frame := .mk 77 "cur" [] none

/-! ## Lemmas about the dictionary model -/

theorem dlookup_dinsert_self {κ α : Type} [DecidableEq κ]
    (l : List (κ × α)) (k : κ) (v : α) :
    dlookup (dinsert l k v) k = some v := by
  induction l with
  | nil => simp [dinsert, dlookup]
  | cons p rest ih =>
    obtain ⟨k', v'⟩ := p
    by_cases h : k = k'
    · subst h; simp [dinsert, dlookup]
    · simp [dinsert, dlookup, h, ih]

theorem dlookup_dinsert_ne {κ α : Type} [DecidableEq κ]
    (l : List (κ × α)) (k : κ) (v : α) (k'' : κ) (h : k'' ≠ k) :
    dlookup (dinsert l k v) k'' = dlookup l k'' := by
  induction l with
  | nil => simp [dinsert, dlookup, h]
  | cons p rest ih =>
    obtain ⟨k', v'⟩ := p
    by_cases hk : k = k'
    · subst hk; simp [dinsert, dlookup, h]
    · by_cases hk'' : k'' = k'
      · subst hk''; simp [dinsert, dlookup, hk]
      · simp [dinsert, dlookup, hk, hk'', ih]

theorem dlookup_mem {κ α : Type} [DecidableEq κ]
    {l : List (κ × α)} {k : κ} {v : α} (h : dlookup l k = some v) :
    (k, v) ∈ l := by
  induction l with
  | nil => simp [dlookup] at h
  | cons p rest ih =>
    obtain ⟨k', v'⟩ := p
    by_cases hk : k = k'
    · subst hk
      simp [dlookup] at h
      subst h
      exact .head _
    · simp [dlookup, hk] at h
      exact .tail _ (ih h)

theorem mem_dlookup {κ α : Type} [DecidableEq κ]
    {l : List (κ × α)} {k : κ} {v : α}
    (hnd : (l.map Prod.fst).Nodup) (h : (k, v) ∈ l) :
    dlookup l k = some v := by
  induction l with
  | nil => simp at h
  | cons p rest ih =>
    obtain ⟨k', v'⟩ := p
    simp only [List.map_cons, List.nodup_cons] at hnd
    rcases List.mem_cons.mp h with h1 | h1
    · have hk : k = k' := congrArg Prod.fst h1
      have hv : v = v' := congrArg Prod.snd h1
      subst hk
      subst hv
      simp [dlookup]
    · have hk : k ≠ k' := by
        intro hkk
        subst hkk
        exact hnd.1 (List.mem_map_of_mem Prod.fst h1)
      rw [dlookup, if_neg hk]
      exact ih hnd.2 h1

theorem dlookup_isSome_iff {κ α : Type} [DecidableEq κ]
    (l : List (κ × α)) (k : κ) :
    (dlookup l k).isSome = true ↔ k ∈ l.map Prod.fst := by
  induction l with
  | nil => simp [dlookup]
  | cons p rest ih =>
    obtain ⟨k', v'⟩ := p
    by_cases hk : k = k'
    · subst hk; simp [dlookup]
    · simp [dlookup, hk, ih, Ne.symm hk]

theorem mem_keys_dinsert {κ α : Type} [DecidableEq κ]
    (l : List (κ × α)) (k : κ) (v : α) (k'' : κ) :
    k'' ∈ (dinsert l k v).map Prod.fst ↔ k'' = k ∨ k'' ∈ l.map Prod.fst := by
  induction l with
  | nil => simp [dinsert]
  | cons p rest ih =>
    obtain ⟨k', v'⟩ := p
    by_cases hk : k = k'
    · subst hk; simp [dinsert]
    · simp [dinsert, hk, ih]; tauto

theorem nodup_keys_dinsert {κ α : Type} [DecidableEq κ]
    (l : List (κ × α)) (k : κ) (v : α)
    (h : (l.map Prod.fst).Nodup) :
    ((dinsert l k v).map Prod.fst).Nodup := by
  induction l with
  | nil => simp [dinsert]
  | cons p rest ih =>
    obtain ⟨k', v'⟩ := p
    simp only [List.map_cons, List.nodup_cons] at h
    by_cases hk : k = k'
    · subst hk
      rw [dinsert, if_pos rfl]
      simp only [List.map_cons, List.nodup_cons]
      exact h
    · rw [dinsert, if_neg hk]
      simp only [List.map_cons, List.nodup_cons]
      refine ⟨fun hc => ?_, ih h.2⟩
      rcases (mem_keys_dinsert rest k v k').mp hc with h1 | h1
      · exact hk h1.symm
      · exact h.1 h1

theorem mem_dinsert {κ α : Type} [DecidableEq κ]
    {l : List (κ × α)} {k : κ} {v : α} {p : κ × α}
    (h : p ∈ dinsert l k v) : p = (k, v) ∨ p ∈ l := by
  induction l with
  | nil => simp [dinsert] at h; simp [h]
  | cons q rest ih =>
    obtain ⟨k', v'⟩ := q
    by_cases hk : k = k'
    · subst hk
      simp [dinsert] at h
      rcases h with h | h
      · left; simp [h]
      · right; exact .tail _ h
    · simp only [dinsert, if_neg hk, List.mem_cons] at h
      rcases h with h | h
      · right; simp [h]
      · rcases ih h with h1 | h1
        · left; exact h1
        · right; exact .tail _ h1

theorem dremove_sublist {κ α : Type} [DecidableEq κ]
    (l : List (κ × α)) (k : κ) : List.Sublist (dremove l k) l := by
  induction l with
  | nil => simp [dremove]
  | cons p rest ih =>
    obtain ⟨k', v'⟩ := p
    by_cases hk : k = k'
    · rw [dremove, if_pos hk]
      exact List.sublist_cons_self _ _
    · rw [dremove, if_neg hk]
      exact ih.cons₂ _

theorem dlookup_dremove_ne {κ α : Type} [DecidableEq κ]
    (l : List (κ × α)) (k k'' : κ) (h : k'' ≠ k) :
    dlookup (dremove l k) k'' = dlookup l k'' := by
  induction l with
  | nil => simp [dremove]
  | cons p rest ih =>
    obtain ⟨k', v'⟩ := p
    by_cases hk : k = k'
    · subst hk
      simp [dremove, dlookup, h]
    · by_cases hk'' : k'' = k'
      · subst hk''; simp [dremove, dlookup, hk]
      · simp [dremove, dlookup, hk, hk'', ih]

theorem dlookup_dremove_self {κ α : Type} [DecidableEq κ]
    (l : List (κ × α)) (k : κ) (hnd : (l.map Prod.fst).Nodup) :
    dlookup (dremove l k) k = none := by
  induction l with
  | nil => simp [dremove, dlookup]
  | cons p rest ih =>
    obtain ⟨k', v'⟩ := p
    simp only [List.map_cons, List.nodup_cons] at hnd
    by_cases hk : k = k'
    · subst hk
      rw [dremove, if_pos rfl]
      cases h : dlookup rest k with
      | none => rfl
      | some v =>
        exact absurd (List.mem_map_of_mem Prod.fst (dlookup_mem h)) hnd.1
    · rw [dremove, if_neg hk, dlookup, if_neg hk]
      exact ih hnd.2

theorem ddelete_isSome {κ α : Type} [DecidableEq κ]
    (l : List (κ × α)) (k : κ) :
    (ddelete l k).isSome = (dlookup l k).isSome := by
  induction l with
  | nil => simp [ddelete, dlookup]
  | cons p rest ih =>
    obtain ⟨k', v'⟩ := p
    by_cases hk : k = k'
    · rw [ddelete, if_pos hk, dlookup, if_pos hk]; rfl
    · rw [ddelete, if_neg hk, dlookup, if_neg hk, ← ih]
      cases ddelete rest k <;> rfl

theorem ddelete_sublist {κ α : Type} [DecidableEq κ]
    {l l' : List (κ × α)} {k : κ} (h : ddelete l k = some l') :
    List.Sublist l' l := by
  induction l generalizing l' with
  | nil => simp [ddelete] at h
  | cons p rest ih =>
    obtain ⟨k', v'⟩ := p
    by_cases hk : k = k'
    · rw [ddelete, if_pos hk] at h
      cases h
      exact (List.sublist_cons_self _ _)
    · rw [ddelete, if_neg hk] at h
      cases hd : ddelete rest k with
      | none => rw [hd] at h; exact Option.noConfusion h
      | some rest' =>
        rw [hd] at h
        have h' : (k', v') :: rest' = l' := Option.some.inj h
        subst h'
        exact (ih hd).cons₂ _

theorem dlookup_ddelete_ne {κ α : Type} [DecidableEq κ]
    {l l' : List (κ × α)} {k : κ} (k'' : κ)
    (hd : ddelete l k = some l') (h : k'' ≠ k) :
    dlookup l' k'' = dlookup l k'' := by
  induction l generalizing l' with
  | nil => simp [ddelete] at hd
  | cons p rest ih =>
    obtain ⟨k', v'⟩ := p
    by_cases hk : k = k'
    · subst hk
      simp [ddelete] at hd
      subst hd
      simp [dlookup, h]
    · simp only [ddelete, if_neg hk] at hd
      cases hrest : ddelete rest k with
      | none => simp [hrest] at hd
      | some rest' =>
        simp [hrest] at hd
        subst hd
        by_cases hk'' : k'' = k'
        · subst hk''; simp [dlookup]
        · simp [dlookup, hk'', ih hrest]

theorem dlookup_ddelete_self {κ α : Type} [DecidableEq κ]
    {l l' : List (κ × α)} {k : κ}
    (hnd : (l.map Prod.fst).Nodup) (hd : ddelete l k = some l') :
    dlookup l' k = none := by
  induction l generalizing l' with
  | nil => simp [ddelete] at hd
  | cons p rest ih =>
    obtain ⟨k', v'⟩ := p
    simp only [List.map_cons, List.nodup_cons] at hnd
    by_cases hk : k = k'
    · subst hk
      simp [ddelete] at hd
      subst hd
      cases h : dlookup rest k with
      | none => rfl
      | some v =>
        exact absurd (List.mem_map_of_mem Prod.fst (dlookup_mem h)) hnd.1
    · simp only [ddelete, if_neg hk] at hd
      cases hrest : ddelete rest k with
      | none => simp [hrest] at hd
      | some rest' =>
        simp [hrest] at hd
        subst hd
        simp [dlookup, hk, ih hnd.2 hrest]

theorem nodup_keys_sublist {κ α : Type} [DecidableEq κ]
    {l l' : List (κ × α)} (hs : List.Sublist l' l)
    (h : (l.map Prod.fst).Nodup) : (l'.map Prod.fst).Nodup :=
  (hs.map Prod.fst).nodup h

theorem popAll_lookup (ks : List String) (m : List (String × Nat)) (k : String)
    (hnd : (m.map Prod.fst).Nodup) :
    dlookup (popAll m ks) k = if k ∈ ks then none else dlookup m k := by
  induction ks generalizing m with
  | nil => simp [popAll]
  | cons k0 rest ih =>
    have hnd' : ((dremove m k0).map Prod.fst).Nodup :=
      nodup_keys_sublist (dremove_sublist m k0) hnd
    by_cases hk : k = k0
    · subst hk
      rw [popAll, ih _ hnd']
      by_cases hmem : k ∈ rest
      · simp [hmem]
      · simp [hmem, dlookup_dremove_self m k hnd]
    · rw [popAll, ih _ hnd']
      by_cases hmem : k ∈ rest
      · simp [hmem, hk]
      · simp [hmem, hk, dlookup_dremove_ne m k0 k hk]

theorem delAll_spec {m : List (Nat × Nat)} {ks : List Nat}
    (hm : (m.map Prod.fst).Nodup) (hks : ks.Nodup)
    (hin : ∀ k ∈ ks, (dlookup m k).isSome = true) :
    ∃ m', delAll m ks = some m' ∧ List.Sublist m' m
      ∧ (∀ k ∈ ks, dlookup m' k = none)
      ∧ (∀ k', k' ∉ ks → dlookup m' k' = dlookup m k') := by
  induction ks generalizing m with
  | nil => exact ⟨m, rfl, List.Sublist.refl m, by simp, fun _ _ => rfl⟩
  | cons k0 rest ih =>
    simp only [List.nodup_cons] at hks
    have h0 : (dlookup m k0).isSome = true := hin k0 (.head _)
    have hds : (ddelete m k0).isSome = true := by
      rw [ddelete_isSome]; exact h0
    obtain ⟨m1, hm1⟩ := Option.isSome_iff_exists.mp hds
    have hm1nd : (m1.map Prod.fst).Nodup :=
      nodup_keys_sublist (ddelete_sublist hm1) hm
    have hin1 : ∀ k ∈ rest, (dlookup m1 k).isSome = true := by
      intro k hk
      have hne : k ≠ k0 := fun hc => hks.1 (hc ▸ hk)
      rw [dlookup_ddelete_ne k hm1 hne]
      exact hin k (.tail _ hk)
    obtain ⟨m', hdel, hsub, hnone, hkeep⟩ := ih hm1nd hks.2 hin1
    refine ⟨m', ?_, hsub.trans (ddelete_sublist hm1), ?_, ?_⟩
    · rw [delAll, hm1]
      exact hdel
    · intro k hk
      rcases List.mem_cons.mp hk with h1 | h1
      · subst h1
        rw [hkeep k hks.1, dlookup_ddelete_self hm hm1]
      · exact hnone k h1
    · intro k' hk'
      have h1 : k' ∉ rest := fun hc => hk' (.tail _ hc)
      have h2 : k' ≠ k0 := fun hc => hk' (hc ▸ .head _)
      rw [hkeep k' h1, dlookup_ddelete_ne k' hm1 h2]

/-! ## Lemmas about the stable sort -/

theorem mem_stableInsert {α : Type} (le : α → α → Bool) (x y : α)
    (l : List α) : y ∈ stableInsert le x l ↔ y = x ∨ y ∈ l := by
  induction l with
  | nil => simp [stableInsert]
  | cons z rest ih =>
    by_cases h : le x z
    · simp [stableInsert, h]
    · simp [stableInsert, h, ih]
      tauto

theorem mem_stableSort {α : Type} (le : α → α → Bool) (x : α)
    (l : List α) : x ∈ stableSort le l ↔ x ∈ l := by
  induction l with
  | nil => simp [stableSort]
  | cons y rest ih =>
    simp [stableSort, mem_stableInsert, ih]

theorem length_stableInsert {α : Type} (le : α → α → Bool) (x : α)
    (l : List α) : (stableInsert le x l).length = l.length + 1 := by
  induction l with
  | nil => simp [stableInsert]
  | cons z rest ih =>
    by_cases h : le x z
    · simp [stableInsert, h]
    · simp [stableInsert, h, ih]

theorem length_stableSort {α : Type} (le : α → α → Bool) (l : List α) :
    (stableSort le l).length = l.length := by
  induction l with
  | nil => rfl
  | cons y rest ih =>
    rw [stableSort, length_stableInsert, ih, List.length_cons]

/-! ## Lemmas about the frame chain -/

theorem frameChain_ne_nil (f : Frame) : frameChain f ≠ [] := by
  obtain ⟨i, n, l, b⟩ := f
  cases b <;> simp [frameChain]

theorem frameChain_head (f : Frame) :
    ∃ rest, frameChain f = f :: rest := by
  obtain ⟨i, n, l, b⟩ := f
  cases b <;> exact ⟨_, rfl⟩

theorem self_mem_frameChain (f : Frame) : f ∈ frameChain f := by
  obtain ⟨rest, h⟩ := frameChain_head f
  rw [h]
  exact .head _

/-! ## Lemmas about variable-node construction and children -/

theorem objectChildrenLoop_obs (tr : FramesTracker)
    (pen : Option String) (lst : List (String × PyVal × Option String)) :
    (objectChildrenLoop tr pen lst).1.map
        (fun v => (v.name, v.get_variable_reference, v.is_return_value))
      = lst.map (fun p => (p.1, p.2.1.ident, false)) := by
  induction lst generalizing tr with
  | nil => simp [objectChildrenLoop]
  | cons p rest ih =>
    obtain ⟨key, val, suffix⟩ := p
    simp only [objectChildrenLoop, List.map_cons]
    rw [ih]
    simp [mkObjectVariable, Variable.get_variable_reference, Val.ident]

theorem objectChildrenLoop_nodeIds (tr : FramesTracker)
    (pen : Option String) (lst : List (String × PyVal × Option String)) :
    (objectChildrenLoop tr pen lst).1.map Variable.nodeId
        = List.range' tr.nextNodeId lst.length
      ∧ (objectChildrenLoop tr pen lst).2.nextNodeId
        = tr.nextNodeId + lst.length := by
  induction lst generalizing tr with
  | nil => simp [objectChildrenLoop]
  | cons p rest ih =>
    obtain ⟨key, val, suffix⟩ := p
    simp only [objectChildrenLoop, List.map_cons, List.length_cons]
    constructor
    · rw [(ih _).1]
      simp [mkObjectVariable, List.range'_succ]
    · rw [(ih _).2]
      simp [mkObjectVariable]
      omega

theorem returnValuesLoop_obs (tr : FramesTracker) (key : String)
    (items : List (String × PyVal)) :
    (returnValuesLoop tr key items).1.map
        (fun v => (v.name, v.evaluate_name, v.is_return_value, v.value))
      = items.map (fun p =>
          (p.1, some (key ++ "[" ++ pyReprStr p.1 ++ "]"), true,
            Val.pv p.2)) := by
  induction items generalizing tr with
  | nil => simp [returnValuesLoop]
  | cons p rest ih =>
    obtain ⟨rk, rv⟩ := p
    simp [returnValuesLoop, mkObjectVariable, ih]

theorem returnValuesLoop_mem (tr : FramesTracker) (key : String)
    (items : List (String × PyVal)) (rk : String) (rv : PyVal)
    (h : (rk, rv) ∈ items) :
    ∃ v ∈ (returnValuesLoop tr key items).1,
      v.name = rk ∧ v.is_return_value = true
      ∧ v.evaluate_name = some (key ++ "[" ++ pyReprStr rk ++ "]")
      ∧ v.value = .pv rv := by
  have hmem : (rk, some (key ++ "[" ++ pyReprStr rk ++ "]"), true,
      Val.pv rv) ∈ (returnValuesLoop tr key items).1.map
        (fun v => (v.name, v.evaluate_name, v.is_return_value, v.value)) := by
    rw [returnValuesLoop_obs]
    exact List.mem_map_of_mem _ h
  obtain ⟨v, hv, heq⟩ := List.mem_map.mp hmem
  refine ⟨v, hv, ?_, ?_, ?_, ?_⟩
  · exact congrArg (fun t => t.1) heq
  · exact congrArg (fun t => t.2.2.1) heq
  · exact congrArg (fun t => t.2.1) heq
  · exact congrArg (fun t => t.2.2.2) heq

theorem frameLocalsLoop_mem_return (tr : FramesTracker)
    (locals : List (String × PyVal)) (bv : PyVal) (rk : String) (rv : PyVal)
    (hloc : (RETURN_VALUES_DICT, bv) ∈ locals)
    (hrv : (rk, rv) ∈ bv.dictItems) :
    ∃ v ∈ (frameLocalsLoop tr locals).1,
      v.name = rk ∧ v.is_return_value = true
      ∧ v.evaluate_name
          = some (RETURN_VALUES_DICT ++ "[" ++ pyReprStr rk ++ "]")
      ∧ v.value = .pv rv := by
  induction locals generalizing tr with
  | nil => simp at hloc
  | cons p rest ih =>
    obtain ⟨key, val⟩ := p
    rcases List.mem_cons.mp hloc with h1 | h1
    · have hkey : RETURN_VALUES_DICT = key := congrArg Prod.fst h1
      have hval : bv = val := congrArg Prod.snd h1
      subst hval
      rw [frameLocalsLoop, if_pos hkey.symm]
      obtain ⟨v, hv, hprops⟩ :=
        returnValuesLoop_mem tr key bv.dictItems rk rv hrv
      rw [← hkey] at hprops
      exact ⟨v, List.mem_append_left _ hv, hprops⟩
    · by_cases hkey : key = RETURN_VALUES_DICT
      · rw [frameLocalsLoop, if_pos hkey]
        obtain ⟨v, hv, hprops⟩ :=
          ih (returnValuesLoop tr key val.dictItems).2 h1
        exact ⟨v, List.mem_append_right _ hv, hprops⟩
      · rw [frameLocalsLoop, if_neg hkey]
        obtain ⟨v, hv, hprops⟩ :=
          ih (mkObjectVariable tr key (.pv val) false (some key)).2 h1
        exact ⟨v, .tail _ hv, hprops⟩

theorem frame_children_mem_return (frame : Frame) (tr : FramesTracker)
    (fmt : Option Fmt) (bv : PyVal) (rk : String) (rv : PyVal)
    (hloc : (RETURN_VALUES_DICT, bv) ∈ frame.fLocals)
    (hrv : (rk, rv) ∈ bv.dictItems) :
    ∃ v ∈ (FrameVariable.get_children_variables frame tr fmt).1,
      v.name = rk ∧ v.is_return_value = true
      ∧ v.evaluate_name
          = some (RETURN_VALUES_DICT ++ "[" ++ pyReprStr rk ++ "]")
      ∧ v.value = .pv rv := by
  obtain ⟨v, hv, hprops⟩ :=
    frameLocalsLoop_mem_return tr frame.fLocals bv rk rv hloc hrv
  refine ⟨v, ?_, hprops⟩
  rw [FrameVariable.get_children_variables]
  exact (mem_stableSort varLe v _).mpr hv

theorem get_var_data_return (v : Variable) (fmt : Option Fmt)
    (h : v.is_return_value = true) :
    (v.get_var_data fmt).name = "(return) " ++ v.name
    ∧ "readOnly" ∈ (v.get_var_data fmt).attributes
    ∧ (v.get_var_data fmt).evaluateName = v.evaluate_name := by
  rw [Variable.get_var_data]
  refine ⟨by simp [h], ?_, by simp⟩
  simp only [h, if_true]
  exact List.mem_append_right _ (.head _)

/-! ## Lemmas about the world state and `track` -/

theorem dlookup_trackers_eq (w : World) (trid : Nat)
    (h : (dlookup w.trackers trid).isSome = true) :
    dlookup w.trackers trid = some (w.tracker trid) := by
  rw [World.tracker]
  cases hl : dlookup w.trackers trid with
  | none => rw [hl] at h; simp at h
  | some tr => rfl

theorem tracker_updTracker_self (w : World) (trid : Nat)
    (f : FramesTracker → FramesTracker) :
    (w.updTracker trid f).tracker trid = f (w.tracker trid) := by
  rw [World.updTracker, World.tracker]
  simp only [dlookup_dinsert_self]

theorem trackers_updTracker_ne (w : World) (trid trid' : Nat)
    (f : FramesTracker → FramesTracker) (h : trid' ≠ trid) :
    dlookup (w.updTracker trid f).trackers trid' = dlookup w.trackers trid' :=
  dlookup_dinsert_ne _ _ _ _ h

theorem tracker_updTracker_ne (w : World) (trid trid' : Nat)
    (f : FramesTracker → FramesTracker) (h : trid' ≠ trid) :
    (w.updTracker trid f).tracker trid' = w.tracker trid' := by
  rw [World.tracker, World.tracker, trackers_updTracker_ne w trid trid' f h]

theorem trackers_updTracker_self (w : World) (trid : Nat)
    (f : FramesTracker → FramesTracker) :
    dlookup (w.updTracker trid f).trackers trid
      = some (f (w.tracker trid)) :=
  dlookup_dinsert_self _ _ _

theorem foldl_dinsert_frame_lookup_not_mem (fs : List Frame)
    (m : List (Nat × Frame)) (k : Nat) (h : k ∉ fs.map Frame.ident) :
    dlookup (fs.foldl (fun m f => dinsert m f.ident f) m) k = dlookup m k := by
  induction fs generalizing m with
  | nil => rfl
  | cons f rest ih =>
    simp only [List.map_cons, List.mem_cons] at h
    push_neg at h
    rw [List.foldl_cons, ih _ h.2, dlookup_dinsert_ne _ _ _ _ h.1]

theorem foldl_dinsert_frame_lookup_mem (fs : List Frame)
    (m : List (Nat × Frame)) (f : Frame) (hf : f ∈ fs)
    (hnd : (fs.map Frame.ident).Nodup) :
    dlookup (fs.foldl (fun m f => dinsert m f.ident f) m) f.ident = some f := by
  induction fs generalizing m with
  | nil => simp at hf
  | cons g rest ih =>
    simp only [List.map_cons, List.nodup_cons] at hnd
    rcases List.mem_cons.mp hf with h1 | h1
    · subst h1
      rw [List.foldl_cons,
        foldl_dinsert_frame_lookup_not_mem rest _ f.ident hnd.1,
        dlookup_dinsert_self]
    · rw [List.foldl_cons]
      exact ih _ h1 hnd.2

theorem foldl_dinsert_frame_isSome_mono (fs : List Frame)
    (m : List (Nat × Frame)) (k : Nat) (h : (dlookup m k).isSome = true) :
    (dlookup (fs.foldl (fun m f => dinsert m f.ident f) m) k).isSome
      = true := by
  induction fs generalizing m with
  | nil => exact h
  | cons f rest ih =>
    rw [List.foldl_cons]
    refine ih _ ?_
    by_cases hk : k = f.ident
    · subst hk; rw [dlookup_dinsert_self]; rfl
    · rw [dlookup_dinsert_ne _ _ _ _ hk]; exact h

theorem foldl_dinsert_frame_isSome (fs : List Frame)
    (m : List (Nat × Frame)) (k : Nat) (h : k ∈ fs.map Frame.ident) :
    (dlookup (fs.foldl (fun m f => dinsert m f.ident f) m) k).isSome
      = true := by
  induction fs generalizing m with
  | nil => simp at h
  | cons f rest ih =>
    rw [List.foldl_cons]
    simp only [List.map_cons, List.mem_cons] at h
    by_cases h1 : k ∈ rest.map Frame.ident
    · exact ih _ h1
    · have hk : k = f.ident := by tauto
      subst hk
      refine foldl_dinsert_frame_isSome_mono rest _ _ ?_
      rw [dlookup_dinsert_self]
      rfl

theorem foldl_dinsert_frame_nodup (fs : List Frame)
    (m : List (Nat × Frame)) (h : (m.map Prod.fst).Nodup) :
    ((fs.foldl (fun m f => dinsert m f.ident f) m).map Prod.fst).Nodup := by
  induction fs generalizing m with
  | nil => exact h
  | cons f rest ih =>
    rw [List.foldl_cons]
    exact ih _ (nodup_keys_dinsert _ _ _ h)

theorem foldl_dinsert_frame_mem (fs : List Frame)
    (m : List (Nat × Frame)) {r : Nat × Frame}
    (h : r ∈ fs.foldl (fun m f => dinsert m f.ident f) m) :
    r ∈ m ∨ ∃ f ∈ fs, r = (f.ident, f) := by
  induction fs generalizing m with
  | nil => exact Or.inl h
  | cons f rest ih =>
    rw [List.foldl_cons] at h
    rcases ih _ h with h1 | h1
    · rcases mem_dinsert h1 with h2 | h2
      · exact Or.inr ⟨f, .head _, h2⟩
      · exact Or.inl h2
    · obtain ⟨g, hg, hr⟩ := h1
      exact Or.inr ⟨g, .tail _ hg, hr⟩

theorem foldl_dinsert_idx_lookup_not_mem (fs : List Frame)
    (idx : List (Nat × Nat)) (trid k : Nat) (h : k ∉ fs.map Frame.ident) :
    dlookup (fs.foldl (fun idx f => dinsert idx f.ident trid) idx) k
      = dlookup idx k := by
  induction fs generalizing idx with
  | nil => rfl
  | cons f rest ih =>
    simp only [List.map_cons, List.mem_cons] at h
    push_neg at h
    rw [List.foldl_cons, ih _ h.2, dlookup_dinsert_ne _ _ _ _ h.1]

theorem foldl_dinsert_idx_lookup_mem (fs : List Frame)
    (idx : List (Nat × Nat)) (trid k : Nat) (h : k ∈ fs.map Frame.ident) :
    dlookup (fs.foldl (fun idx f => dinsert idx f.ident trid) idx) k
      = some trid := by
  induction fs generalizing idx with
  | nil => simp at h
  | cons f rest ih =>
    rw [List.foldl_cons]
    simp only [List.map_cons, List.mem_cons] at h
    by_cases h1 : k ∈ rest.map Frame.ident
    · exact ih _ h1
    · have hk : k = f.ident := by tauto
      subst hk
      rw [foldl_dinsert_idx_lookup_not_mem rest _ trid _ h1,
        dlookup_dinsert_self]

theorem foldl_dinsert_idx_nodup (fs : List Frame)
    (idx : List (Nat × Nat)) (trid : Nat)
    (h : (idx.map Prod.fst).Nodup) :
    ((fs.foldl (fun idx f => dinsert idx f.ident trid) idx).map
      Prod.fst).Nodup := by
  induction fs generalizing idx with
  | nil => exact h
  | cons f rest ih =>
    rw [List.foldl_cons]
    exact ih _ (nodup_keys_dinsert _ _ _ h)

theorem foldl_dinsert_idx_mem (fs : List Frame)
    (idx : List (Nat × Nat)) (trid : Nat) {p : Nat × Nat}
    (h : p ∈ fs.foldl (fun idx f => dinsert idx f.ident trid) idx) :
    p ∈ idx ∨ (p.1 ∈ fs.map Frame.ident ∧ p.2 = trid) := by
  induction fs generalizing idx with
  | nil => exact Or.inl h
  | cons f rest ih =>
    rw [List.foldl_cons] at h
    rcases ih _ h with h1 | h1
    · rcases mem_dinsert h1 with h2 | h2
      · subst h2; right; simp
      · exact Or.inl h2
    · right
      exact ⟨List.mem_cons.mpr (Or.inr h1.1), h1.2⟩

theorem tracker_set_index (w : World) (idx : List (Nat × Nat)) (trid : Nat) :
    (({ w with variable_reference_to_frames_tracker := idx } : World)).tracker
      trid = w.tracker trid := rfl

theorem trackLoop_ttt (trid : Nat) (tid eff : String) (w : World)
    (fs : List Frame) :
    (trackLoop trid tid eff w fs).thread_id_to_tracker
      = w.thread_id_to_tracker := by
  induction fs generalizing w with
  | nil => rfl
  | cons f rest ih =>
    simp only [trackLoop]
    rw [ih]
    simp [World.updTracker]

theorem trackLoop_fake (trid : Nat) (tid eff : String) (w : World)
    (fs : List Frame) :
    (trackLoop trid tid eff w fs).thread_id_to_fake_frames
      = w.thread_id_to_fake_frames := by
  induction fs generalizing w with
  | nil => rfl
  | cons f rest ih =>
    simp only [trackLoop]
    rw [ih]
    simp [World.updTracker]

theorem trackLoop_idx (trid : Nat) (tid eff : String) (w : World)
    (fs : List Frame) :
    (trackLoop trid tid eff w fs).variable_reference_to_frames_tracker
      = fs.foldl (fun idx f => dinsert idx f.ident trid)
          w.variable_reference_to_frames_tracker := by
  induction fs generalizing w with
  | nil => rfl
  | cons f rest ih =>
    simp only [trackLoop, List.foldl_cons]
    rw [ih]
    simp [World.updTracker]

theorem trackLoop_trackers_ne (trid : Nat) (tid eff : String) (w : World)
    (fs : List Frame) (trid' : Nat) (h : trid' ≠ trid) :
    dlookup (trackLoop trid tid eff w fs).trackers trid'
      = dlookup w.trackers trid' := by
  induction fs generalizing w with
  | nil => rfl
  | cons f rest ih =>
    simp only [trackLoop]
    rw [ih]
    simp only [World.updTracker]
    rw [dlookup_dinsert_ne _ _ _ _ h, dlookup_dinsert_ne _ _ _ _ h,
      dlookup_dinsert_ne _ _ _ _ h, dlookup_dinsert_ne _ _ _ _ h]

theorem trackLoop_isSome (trid : Nat) (tid eff : String) (w : World)
    (fs : List Frame) (h : (dlookup w.trackers trid).isSome = true) :
    (dlookup (trackLoop trid tid eff w fs).trackers trid).isSome = true := by
  induction fs generalizing w with
  | nil => exact h
  | cons f rest ih =>
    simp only [trackLoop]
    refine ih _ ?_
    simp only [World.updTracker]
    rw [dlookup_dinsert_self]
    rfl

theorem trackLoop_frame_map (trid : Nat) (tid eff : String) (w : World)
    (fs : List Frame) :
    ((trackLoop trid tid eff w fs).tracker trid).frame_id_to_frame
      = fs.foldl (fun m f => dinsert m f.ident f)
          ((w.tracker trid).frame_id_to_frame) := by
  induction fs generalizing w with
  | nil => rfl
  | cons f rest ih =>
    simp only [trackLoop, List.foldl_cons]
    rw [ih]
    simp [tracker_updTracker_self, tracker_set_index, mkFrameVariable]

theorem trackLoop_main (trid : Nat) (tid eff : String) (w : World)
    (fs : List Frame) :
    ((trackLoop trid tid eff w fs).tracker trid).main_thread_id
      = (w.tracker trid).main_thread_id := by
  induction fs generalizing w with
  | nil => rfl
  | cons f rest ih =>
    simp only [trackLoop]
    rw [ih]
    simp [tracker_updTracker_self, tracker_set_index, mkFrameVariable]

theorem trackLoop_lineno (trid : Nat) (tid eff : String) (w : World)
    (fs : List Frame) :
    ((trackLoop trid tid eff w fs).tracker trid).frame_id_to_lineno
      = (w.tracker trid).frame_id_to_lineno := by
  induction fs generalizing w with
  | nil => rfl
  | cons f rest ih =>
    simp only [trackLoop]
    rw [ih]
    simp [tracker_updTracker_self, tracker_set_index, mkFrameVariable]

theorem trackLoop_untracked (trid : Nat) (tid eff : String) (w : World)
    (fs : List Frame) :
    ((trackLoop trid tid eff w fs).tracker trid).untracked
      = (w.tracker trid).untracked := by
  induction fs generalizing w with
  | nil => rfl
  | cons f rest ih =>
    simp only [trackLoop]
    rw [ih]
    simp [tracker_updTracker_self, tracker_set_index, mkFrameVariable]

theorem trackLoop_trackers_nodup (trid : Nat) (tid eff : String) (w : World)
    (fs : List Frame) (h : (w.trackers.map Prod.fst).Nodup) :
    ((trackLoop trid tid eff w fs).trackers.map Prod.fst).Nodup := by
  induction fs generalizing w with
  | nil => exact h
  | cons f rest ih =>
    simp only [trackLoop]
    refine ih _ ?_
    simp only [World.updTracker]
    exact nodup_keys_dinsert _ _ _ (nodup_keys_dinsert _ _ _
      (nodup_keys_dinsert _ _ _ (nodup_keys_dinsert _ _ _ h)))

theorem trackLoop_tids (trid : Nat) (tid eff : String) (w : World)
    (fs : List Frame) (hne : fs ≠ []) :
    dlookup ((trackLoop trid tid eff w fs).tracker trid).thread_id_to_frame_ids
        eff
      = some (((dlookup ((w.tracker trid).thread_id_to_frame_ids) eff).getD [])
          ++ fs.map Frame.ident) := by
  induction fs generalizing w with
  | nil => exact absurd rfl hne
  | cons f rest ih =>
    simp only [trackLoop]
    cases rest with
    | nil =>
      simp only [trackLoop]
      simp [tracker_updTracker_self, tracker_set_index, mkFrameVariable,
        dlookup_dinsert_self]
    | cons g rest' =>
      rw [ih _ (by simp)]
      simp only [tracker_updTracker_self, tracker_set_index, mkFrameVariable,
        List.map_cons]
      simp [dlookup_dinsert_self]

theorem tracker_set_ttt (w : World) (m : List (String × Nat)) (trid : Nat) :
    (({ w with thread_id_to_tracker := m } : World)).tracker trid
      = w.tracker trid := rfl

theorem track_main (w : World) (trid : Nat) (thread_id : String)
    (frame : Frame) (lineno : List (Nat × Nat)) (custom : Option String) :
    ((FramesTracker.track w trid thread_id frame lineno custom).tracker
        trid).main_thread_id = some thread_id := by
  simp only [FramesTracker.track]
  rw [trackLoop_main]
  simp [tracker_updTracker_self, tracker_set_ttt]

theorem track_lineno (w : World) (trid : Nat) (thread_id : String)
    (frame : Frame) (lineno : List (Nat × Nat)) (custom : Option String) :
    ((FramesTracker.track w trid thread_id frame lineno custom).tracker
        trid).frame_id_to_lineno = lineno := by
  simp only [FramesTracker.track]
  rw [trackLoop_lineno]
  simp [tracker_updTracker_self, tracker_set_ttt]

theorem track_untracked (w : World) (trid : Nat) (thread_id : String)
    (frame : Frame) (lineno : List (Nat × Nat)) (custom : Option String) :
    ((FramesTracker.track w trid thread_id frame lineno custom).tracker
        trid).untracked = (w.tracker trid).untracked := by
  simp only [FramesTracker.track]
  rw [trackLoop_untracked]
  simp [tracker_updTracker_self, tracker_set_ttt]

theorem track_index_mem (w : World) (trid : Nat) (thread_id : String)
    (frame : Frame) (lineno : List (Nat × Nat)) (custom : Option String)
    (k : Nat) (h : k ∈ (frameChain frame).map Frame.ident) :
    dlookup (FramesTracker.track w trid thread_id frame lineno
        custom).variable_reference_to_frames_tracker k = some trid := by
  simp only [FramesTracker.track]
  rw [trackLoop_idx]
  simp only [World.updTracker]
  exact foldl_dinsert_idx_lookup_mem _ _ _ _ h

theorem track_index_not_mem (w : World) (trid : Nat) (thread_id : String)
    (frame : Frame) (lineno : List (Nat × Nat)) (custom : Option String)
    (k : Nat) (h : k ∉ (frameChain frame).map Frame.ident) :
    dlookup (FramesTracker.track w trid thread_id frame lineno
        custom).variable_reference_to_frames_tracker k
      = dlookup w.variable_reference_to_frames_tracker k := by
  simp only [FramesTracker.track]
  rw [trackLoop_idx]
  simp only [World.updTracker]
  exact foldl_dinsert_idx_lookup_not_mem _ _ _ _ h

theorem track_idx_eq (w : World) (trid : Nat) (thread_id : String)
    (frame : Frame) (lineno : List (Nat × Nat)) (custom : Option String) :
    (FramesTracker.track w trid thread_id frame lineno
        custom).variable_reference_to_frames_tracker
      = (frameChain frame).foldl (fun idx f => dinsert idx f.ident trid)
          w.variable_reference_to_frames_tracker := by
  simp only [FramesTracker.track]
  rw [trackLoop_idx]
  simp [World.updTracker]

theorem track_ttt (w : World) (trid : Nat) (thread_id : String)
    (frame : Frame) (lineno : List (Nat × Nat)) (custom : Option String) :
    (FramesTracker.track w trid thread_id frame lineno
        custom).thread_id_to_tracker
      = dinsert w.thread_id_to_tracker (custom.getD thread_id) trid := by
  cases custom with
  | none =>
    simp only [FramesTracker.track]
    rw [trackLoop_ttt]
    rfl
  | some c =>
    simp only [FramesTracker.track]
    rw [trackLoop_ttt]
    rfl

theorem track_fake (w : World) (trid : Nat) (thread_id : String)
    (frame : Frame) (lineno : List (Nat × Nat)) (custom : Option String) :
    (FramesTracker.track w trid thread_id frame lineno
        custom).thread_id_to_fake_frames = w.thread_id_to_fake_frames := by
  simp only [FramesTracker.track]
  rw [trackLoop_fake]
  simp [World.updTracker]

theorem track_trackers_ne (w : World) (trid : Nat) (thread_id : String)
    (frame : Frame) (lineno : List (Nat × Nat)) (custom : Option String)
    (trid' : Nat) (h : trid' ≠ trid) :
    dlookup (FramesTracker.track w trid thread_id frame lineno
        custom).trackers trid' = dlookup w.trackers trid' := by
  simp only [FramesTracker.track]
  rw [trackLoop_trackers_ne _ _ _ _ _ _ h]
  simp only [World.updTracker]
  rw [dlookup_dinsert_ne _ _ _ _ h]

theorem track_frame_map (w : World) (trid : Nat) (thread_id : String)
    (frame : Frame) (lineno : List (Nat × Nat)) (custom : Option String) :
    ((FramesTracker.track w trid thread_id frame lineno custom).tracker
        trid).frame_id_to_frame
      = (frameChain frame).foldl (fun m f => dinsert m f.ident f)
          ((w.tracker trid).frame_id_to_frame) := by
  simp only [FramesTracker.track]
  rw [trackLoop_frame_map]
  simp [tracker_updTracker_self, tracker_set_ttt]

theorem track_isSome (w : World) (trid : Nat) (thread_id : String)
    (frame : Frame) (lineno : List (Nat × Nat)) (custom : Option String) :
    (dlookup (FramesTracker.track w trid thread_id frame lineno
        custom).trackers trid).isSome = true := by
  simp only [FramesTracker.track]
  refine trackLoop_isSome _ _ _ _ _ ?_
  simp only [World.updTracker]
  rw [dlookup_dinsert_self]
  rfl

theorem track_trackers_nodup (w : World) (trid : Nat) (thread_id : String)
    (frame : Frame) (lineno : List (Nat × Nat)) (custom : Option String)
    (h : (w.trackers.map Prod.fst).Nodup) :
    ((FramesTracker.track w trid thread_id frame lineno
        custom).trackers.map Prod.fst).Nodup := by
  simp only [FramesTracker.track]
  refine trackLoop_trackers_nodup _ _ _ _ _ ?_
  simp only [World.updTracker]
  exact nodup_keys_dinsert _ _ _ h

theorem track_tids (w : World) (trid : Nat) (thread_id : String)
    (frame : Frame) (lineno : List (Nat × Nat)) (custom : Option String)
    (hfresh : dlookup ((w.tracker trid).thread_id_to_frame_ids)
        (custom.getD thread_id) = none) :
    dlookup ((FramesTracker.track w trid thread_id frame lineno
        custom).tracker trid).thread_id_to_frame_ids (custom.getD thread_id)
      = some ((frameChain frame).map Frame.ident) := by
  cases custom with
  | none =>
    simp only [Option.getD] at hfresh ⊢
    simp only [FramesTracker.track]
    rw [trackLoop_tids _ _ _ _ _ (frameChain_ne_nil frame)]
    simp [tracker_updTracker_self, tracker_set_ttt, hfresh]
  | some c =>
    simp only [Option.getD] at hfresh ⊢
    simp only [FramesTracker.track]
    rw [trackLoop_tids _ _ _ _ _ (frameChain_ne_nil frame)]
    simp [tracker_updTracker_self, tracker_set_ttt, hfresh]

/-! ## The behaviour of `untrack_all` -/

theorem untrack_noop (w : World) (trid : Nat)
    (h : (w.tracker trid).untracked = true) :
    FramesTracker.untrack_all w trid = .ok w := by
  rw [FramesTracker.untrack_all]
  simp [h]

theorem untrack_all_spec (w : World) (trid : Nat)
    (huntr : (w.tracker trid).untracked = false)
    (hidxnd : (w.variable_reference_to_frames_tracker.map Prod.fst).Nodup)
    (hfnd : (((w.tracker trid).frame_id_to_frame).map Prod.fst).Nodup)
    (hsub : ∀ r ∈ (w.tracker trid).frame_id_to_frame,
        (dlookup w.variable_reference_to_frames_tracker r.1).isSome = true) :
    ∃ m', delAll w.variable_reference_to_frames_tracker
          ((w.tracker trid).frame_id_to_frame.map Prod.fst) = some m'
      ∧ FramesTracker.untrack_all w trid = .ok
          { thread_id_to_fake_frames := w.thread_id_to_fake_frames
            thread_id_to_tracker := popAll w.thread_id_to_tracker
              ((w.tracker trid).thread_id_to_frame_ids.map Prod.fst)
            variable_reference_to_frames_tracker := m'
            trackers := dinsert w.trackers trid
              { frame_id_to_frame := []
                frame_id_to_main_thread_id := []
                thread_id_to_frame_ids := []
                frame_id_to_lineno := []
                main_thread_id := none
                untracked := true
                variable_reference_to_variable := []
                nextNodeId := (w.tracker trid).nextNodeId } }
      ∧ List.Sublist m' w.variable_reference_to_frames_tracker
      ∧ (∀ k ∈ (w.tracker trid).frame_id_to_frame.map Prod.fst,
          dlookup m' k = none)
      ∧ (∀ k, k ∉ (w.tracker trid).frame_id_to_frame.map Prod.fst →
          dlookup m' k = dlookup w.variable_reference_to_frames_tracker k) := by
  have hin : ∀ k ∈ (w.tracker trid).frame_id_to_frame.map Prod.fst,
      (dlookup w.variable_reference_to_frames_tracker k).isSome = true := by
    intro k hk
    obtain ⟨r, hr, hrk⟩ := List.mem_map.mp hk
    subst hrk
    exact hsub r hr
  obtain ⟨m', hdel, hms, hnone, hkeep⟩ := delAll_spec hidxnd hfnd hin
  refine ⟨m', hdel, ?_, hms, hnone, hkeep⟩
  rw [FramesTracker.untrack_all]
  simp only [huntr, Bool.false_eq_true, if_false, hdel]

/-! ## Lemmas about handle routing at the manager level -/

theorem tracker_congr (w w' : World) (t : Nat)
    (h : dlookup w'.trackers t = dlookup w.trackers t) :
    w'.tracker t = w.tracker t := by
  rw [World.tracker, World.tracker, h]

theorem tracker_of_dlookup (w : World) (t : Nat) (tr : FramesTracker)
    (h : dlookup w.trackers t = some tr) : w.tracker t = tr := by
  rw [World.tracker, h]

theorem tracker_of_dlookup_none (w : World) (t : Nat)
    (h : dlookup w.trackers t = none) : w.tracker t = FramesTracker.init := by
  rw [World.tracker, h]

theorem scanTrackers_none_iff (w : World) (h : Nat)
    (l : List (String × Nat)) :
    scanTrackers w h l = none ↔
      ∀ p ∈ l,
        dlookup (w.tracker p.2).variable_reference_to_variable h = none := by
  induction l with
  | nil => simp [scanTrackers]
  | cons p rest ih =>
    obtain ⟨tid, trid⟩ := p
    rw [scanTrackers]
    cases hg : (w.tracker trid).get_variable h with
    | some v =>
      rw [FramesTracker.get_variable] at hg
      simp only [List.mem_cons]
      constructor
      · intro hc; exact absurd hc (by simp)
      · intro hall
        have := hall (tid, trid) (Or.inl rfl)
        rw [this] at hg
        exact absurd hg (by simp)
    | none =>
      rw [FramesTracker.get_variable] at hg
      simp only [List.mem_cons, ih]
      constructor
      · intro hall q hq
        rcases hq with h1 | h1
        · subst h1; exact hg
        · exact hall q h1
      · intro hall q hq
        exact hall q (Or.inr hq)

theorem get_tracker_of_index (w : World) (h trid : Nat)
    (hidx : dlookup w.variable_reference_to_frames_tracker h = some trid) :
    SuspendedFramesManager._get_tracker_for_variable_reference w h
      = some trid := by
  rw [SuspendedFramesManager._get_tracker_for_variable_reference, hidx]

theorem get_tracker_none (w : World) (h : Nat)
    (hidx : dlookup w.variable_reference_to_frames_tracker h = none)
    (hscan : ∀ p ∈ w.thread_id_to_tracker,
        dlookup (w.tracker p.2).variable_reference_to_variable h = none) :
    SuspendedFramesManager._get_tracker_for_variable_reference w h
      = none := by
  rw [SuspendedFramesManager._get_tracker_for_variable_reference, hidx]
  exact (scanTrackers_none_iff w h _).mpr hscan

theorem get_variable_error (w : World) (h : Nat)
    (hidx : dlookup w.variable_reference_to_frames_tracker h = none)
    (hscan : ∀ p ∈ w.thread_id_to_tracker,
        dlookup (w.tracker p.2).variable_reference_to_variable h = none) :
    SuspendedFramesManager.get_variable w h = .error () := by
  rw [SuspendedFramesManager.get_variable, get_tracker_none w h hidx hscan]

theorem get_thread_id_none (w : World) (h : Nat)
    (hidx : dlookup w.variable_reference_to_frames_tracker h = none)
    (hscan : ∀ p ∈ w.thread_id_to_tracker,
        dlookup (w.tracker p.2).variable_reference_to_variable h = none) :
    SuspendedFramesManager.get_thread_id_for_variable_reference w h
      = none := by
  rw [SuspendedFramesManager.get_thread_id_for_variable_reference,
    get_tracker_none w h hidx hscan]

/-! ## Preservation of the tracker-index invariant -/

theorem inv_tracker_frame_nodup (w : World) (trid : Nat)
    (hinv : TrackerIndexInv w) :
    (((w.tracker trid).frame_id_to_frame).map Prod.fst).Nodup := by
  cases hl : dlookup w.trackers trid with
  | none =>
    rw [tracker_of_dlookup_none w trid hl]
    simp [FramesTracker.init]
  | some tr =>
    rw [tracker_of_dlookup w trid tr hl]
    exact hinv.2.2.2.2 (trid, tr) (dlookup_mem hl)

theorem inv_tracker_frame_idx (w : World) (trid : Nat)
    (hinv : TrackerIndexInv w) :
    ∀ r ∈ (w.tracker trid).frame_id_to_frame,
      dlookup w.variable_reference_to_frames_tracker r.1 = some trid := by
  intro r hr
  cases hl : dlookup w.trackers trid with
  | none =>
    rw [tracker_of_dlookup_none w trid hl] at hr
    simp [FramesTracker.init] at hr
  | some tr =>
    rw [tracker_of_dlookup w trid tr hl] at hr
    exact hinv.2.2.2.1 (trid, tr) (dlookup_mem hl) r hr

theorem inv_init : TrackerIndexInv World.init := by
  refine ⟨?_, ?_, ?_, ?_, ?_⟩ <;> simp [World.init]

theorem inv_track (w : World) (trid : Nat) (thread_id : String)
    (frame : Frame) (lineno : List (Nat × Nat)) (custom : Option String)
    (hinv : TrackerIndexInv w)
    (hfresh : ∀ f ∈ frameChain frame,
        dlookup w.variable_reference_to_frames_tracker f.ident = none ∨
        dlookup w.variable_reference_to_frames_tracker f.ident = some trid) :
    TrackerIndexInv
      (FramesTracker.track w trid thread_id frame lineno custom) := by
  obtain ⟨h1, h2, h3, h4, h5⟩ := hinv
  have hfnd_old := inv_tracker_frame_nodup w trid ⟨h1, h2, h3, h4, h5⟩
  have h4' := inv_tracker_frame_idx w trid ⟨h1, h2, h3, h4, h5⟩
  have hW2 : ((FramesTracker.track w trid thread_id frame lineno
      custom).trackers.map Prod.fst).Nodup :=
    track_trackers_nodup _ _ _ _ _ _ h2
  refine ⟨?_, hW2, ?_, ?_, ?_⟩
  · rw [track_idx_eq]
    exact foldl_dinsert_idx_nodup _ _ _ h1
  · intro p hp
    rw [track_idx_eq] at hp
    rw [trackerHasFrame]
    rcases foldl_dinsert_idx_mem _ _ _ hp with hcase | hcase
    · have hold := h3 p hcase
      rw [trackerHasFrame] at hold
      by_cases hpt : p.2 = trid
      · rw [hpt, track_frame_map]
        rw [hpt] at hold
        exact foldl_dinsert_frame_isSome_mono _ _ _ hold
      · rw [tracker_congr _ _ _
          (track_trackers_ne w trid thread_id frame lineno custom p.2 hpt)]
        exact hold
    · rw [hcase.2, track_frame_map]
      exact foldl_dinsert_frame_isSome _ _ _ hcase.1
  · intro q hq r hr
    obtain ⟨qk, qtr⟩ := q
    dsimp only at hr ⊢
    have hlq := mem_dlookup hW2 hq
    by_cases hqt : qk = trid
    · have htr : (FramesTracker.track w trid thread_id frame lineno
          custom).tracker trid = qtr :=
        tracker_of_dlookup _ _ _ (hqt ▸ hlq)
      rw [← htr, track_frame_map] at hr
      rw [hqt]
      rcases foldl_dinsert_frame_mem _ _ hr with hcase | hcase
      · have hidx := h4' r hcase
        by_cases hc : r.1 ∈ (frameChain frame).map Frame.ident
        · exact track_index_mem _ _ _ _ _ _ _ hc
        · rw [track_index_not_mem _ _ _ _ _ _ _ hc]
          exact hidx
      · obtain ⟨f, hf, hrf⟩ := hcase
        rw [hrf]
        exact track_index_mem _ _ _ _ _ _ _
          (List.mem_map_of_mem Frame.ident hf)
    · have hlq' : dlookup w.trackers qk = some qtr := by
        rw [← track_trackers_ne w trid thread_id frame lineno custom qk hqt]
        exact hlq
      have hidx := h4 (qk, qtr) (dlookup_mem hlq') r hr
      by_cases hc : r.1 ∈ (frameChain frame).map Frame.ident
      · obtain ⟨f, hf, hfi⟩ := List.mem_map.mp hc
        rcases hfresh f hf with hn | hs
        · rw [hfi, hidx] at hn
          exact absurd hn (by simp)
        · rw [hfi, hidx] at hs
          exact absurd (Option.some.inj hs) hqt
      · rw [track_index_not_mem _ _ _ _ _ _ _ hc]
        exact hidx
  · intro q hq
    obtain ⟨qk, qtr⟩ := q
    dsimp only
    have hlq := mem_dlookup hW2 hq
    by_cases hqt : qk = trid
    · have htr : (FramesTracker.track w trid thread_id frame lineno
          custom).tracker trid = qtr :=
        tracker_of_dlookup _ _ _ (hqt ▸ hlq)
      have hmap := track_frame_map w trid thread_id frame lineno custom
      rw [htr] at hmap
      rw [hmap]
      exact foldl_dinsert_frame_nodup _ _ hfnd_old
    · have hlq' : dlookup w.trackers qk = some qtr := by
        rw [← track_trackers_ne w trid thread_id frame lineno custom qk hqt]
        exact hlq
      exact h5 (qk, qtr) (dlookup_mem hlq')

theorem inv_untrack (w : World) (trid : Nat) (hinv : TrackerIndexInv w) :
    (FramesTracker.untrack_all w trid).isOk = true
    ∧ TrackerIndexInv (untrackResult w trid) := by
  obtain ⟨h1, h2, h3, h4, h5⟩ := hinv
  by_cases huntr : (w.tracker trid).untracked = true
  · constructor
    · rw [untrack_noop w trid huntr]
      rfl
    · rw [untrackResult, untrack_noop w trid huntr]
      exact ⟨h1, h2, h3, h4, h5⟩
  · have huntr' : (w.tracker trid).untracked = false := by
      cases hb : (w.tracker trid).untracked
      · rfl
      · exact absurd hb huntr
    have hfnd_old := inv_tracker_frame_nodup w trid ⟨h1, h2, h3, h4, h5⟩
    have h4' := inv_tracker_frame_idx w trid ⟨h1, h2, h3, h4, h5⟩
    have hsub : ∀ r ∈ (w.tracker trid).frame_id_to_frame,
        (dlookup w.variable_reference_to_frames_tracker r.1).isSome
          = true := by
      intro r hr
      rw [h4' r hr]
      rfl
    obtain ⟨m', hdel, heq, hms, hnone, hkeep⟩ :=
      untrack_all_spec w trid huntr' h1 hfnd_old hsub
    have hm'nd : (m'.map Prod.fst).Nodup := nodup_keys_sublist hms h1
    constructor
    · rw [heq]
      rfl
    · rw [untrackResult, heq]
      have hW2 : ((dinsert w.trackers trid
          { frame_id_to_frame := []
            frame_id_to_main_thread_id := []
            thread_id_to_frame_ids := []
            frame_id_to_lineno := []
            main_thread_id := none
            untracked := true
            variable_reference_to_variable := []
            nextNodeId := (w.tracker trid).nextNodeId }).map Prod.fst).Nodup :=
        nodup_keys_dinsert _ _ _ h2
      refine ⟨hm'nd, hW2, ?_, ?_, ?_⟩
      · intro p hp
        dsimp only at hp ⊢
        have hpw : p ∈ w.variable_reference_to_frames_tracker :=
          hms.subset hp
        have hplook : dlookup m' p.1 = some p.2 := mem_dlookup hm'nd hp
        by_cases hpt : p.2 = trid
        · exfalso
          have hwl : dlookup w.variable_reference_to_frames_tracker p.1
              = some trid := by
            rw [← hpt]
            exact mem_dlookup h1 hpw
          have hhas := h3 p hpw
          rw [trackerHasFrame, hpt] at hhas
          have hkeys : p.1 ∈
              ((w.tracker trid).frame_id_to_frame).map Prod.fst :=
            (dlookup_isSome_iff _ _).mp hhas
          rw [hnone p.1 hkeys] at hplook
          exact Option.noConfusion hplook
        · rw [trackerHasFrame]
          have htr :
              (({ thread_id_to_fake_frames := w.thread_id_to_fake_frames
                  thread_id_to_tracker := popAll w.thread_id_to_tracker
                    ((w.tracker trid).thread_id_to_frame_ids.map Prod.fst)
                  variable_reference_to_frames_tracker := m'
                  trackers := dinsert w.trackers trid
                    { frame_id_to_frame := []
                      frame_id_to_main_thread_id := []
                      thread_id_to_frame_ids := []
                      frame_id_to_lineno := []
                      main_thread_id := none
                      untracked := true
                      variable_reference_to_variable := []
                      nextNodeId := (w.tracker trid).nextNodeId } } :
                World)).tracker p.2 = w.tracker p.2 := by
            refine tracker_congr _ _ _ ?_
            exact dlookup_dinsert_ne _ _ _ _ hpt
          rw [htr]
          have hhas := h3 p hpw
          rw [trackerHasFrame] at hhas
          exact hhas
      · intro q hq r hr
        obtain ⟨qk, qtr⟩ := q
        dsimp only at hr ⊢
        have hlq := mem_dlookup hW2 hq
        by_cases hqt : qk = trid
        · exfalso
          rw [hqt, dlookup_dinsert_self] at hlq
          have hqtr := Option.some.inj hlq
          rw [← hqtr] at hr
          simp at hr
        · rw [dlookup_dinsert_ne _ _ _ _ hqt] at hlq
          have hidx := h4 (qk, qtr) (dlookup_mem hlq) r hr
          by_cases hc : r.1 ∈
              ((w.tracker trid).frame_id_to_frame).map Prod.fst
          · exfalso
            obtain ⟨r0, hr0, hr0k⟩ := List.mem_map.mp hc
            have := h4' r0 hr0
            rw [hr0k, hidx] at this
            exact hqt (Option.some.inj this)
          · rw [hkeep r.1 hc]
            exact hidx
      · intro q hq
        obtain ⟨qk, qtr⟩ := q
        dsimp only
        have hlq := mem_dlookup hW2 hq
        by_cases hqt : qk = trid
        · rw [hqt, dlookup_dinsert_self] at hlq
          have hqtr := Option.some.inj hlq
          rw [← hqtr]
          simp
        · rw [dlookup_dinsert_ne _ _ _ _ hqt] at hlq
          exact h5 (qk, qtr) (dlookup_mem hlq)

theorem objectChildrenLoop_handles (tr : FramesTracker)
    (pen : Option String) (lst : List (String × PyVal × Option String)) :
    (objectChildrenLoop tr pen lst).1.map Variable.get_variable_reference
      = lst.map (fun p => p.2.1.ident) := by
  induction lst generalizing tr with
  | nil => simp [objectChildrenLoop]
  | cons p rest ih =>
    obtain ⟨key, val, suffix⟩ := p
    simp only [objectChildrenLoop, List.map_cons]
    rw [ih]
    simp [mkObjectVariable, Variable.get_variable_reference, Val.ident]

theorem object_children_handles (self : Variable) (tr1 tr2 : FramesTracker)
    (fmt : Option Fmt) :
    (ObjectVariable.get_children_variables self tr1 fmt).1.map
        Variable.get_variable_reference
      = (ObjectVariable.get_children_variables self tr2 fmt).1.map
        Variable.get_variable_reference := by
  cases hv : self.value with
  | fr f => simp [ObjectVariable.get_children_variables, hv]
  | pv v =>
    cases v with
    | atom i t s => simp [ObjectVariable.get_children_variables, hv]
    | container i t s entries =>
      simp only [ObjectVariable.get_children_variables, hv]
      rw [objectChildrenLoop_handles, objectChildrenLoop_handles]

/-- C1: a variable node's handle is `id` of the wrapped value
(`get_variable_reference` returns `id(value)`), so obtaining the same live
value twice within one session yields the identical handle, the second
`obtain_as_variable` returns the already-registered node itself (no
duplicate is created and the tracker state does not change), and
re-expanding a container yields children with identical handles no matter
the tracker state at each expansion. -/
theorem claim_C1_handle_stability (tr : FramesTracker) (hwf : RegWF tr)
    (name1 name2 : String) (v : PyVal) (en1 en2 : Option String) :
    (tr.obtain_as_variable name1 v en1).1.get_variable_reference = v.ident
    ∧ ((tr.obtain_as_variable name1 v en1).2.obtain_as_variable name2 v
        en2).1 = (tr.obtain_as_variable name1 v en1).1
    ∧ ((tr.obtain_as_variable name1 v en1).2.obtain_as_variable name2 v
        en2).2 = (tr.obtain_as_variable name1 v en1).2
    ∧ (∀ (self : Variable) (tr1 tr2 : FramesTracker) (fmt : Option Fmt),
        (ObjectVariable.get_children_variables self tr1 fmt).1.map
          Variable.get_variable_reference
        = (ObjectVariable.get_children_variables self tr2 fmt).1.map
          Variable.get_variable_reference) := by
  cases hcache : dlookup tr.variable_reference_to_variable v.ident with
  | some var =>
    have hvar : var.get_variable_reference = v.ident :=
      hwf (v.ident, var) (dlookup_mem hcache)
    refine ⟨?_, ?_, ?_, fun self tr1 tr2 fmt =>
      object_children_handles self tr1 tr2 fmt⟩
    · simp only [FramesTracker.obtain_as_variable, hcache]
      exact hvar
    · simp only [FramesTracker.obtain_as_variable, hcache]
    · simp only [FramesTracker.obtain_as_variable, hcache]
  | none =>
    refine ⟨?_, ?_, ?_, fun self tr1 tr2 fmt =>
      object_children_handles self tr1 tr2 fmt⟩
    · simp only [FramesTracker.obtain_as_variable, hcache, mkObjectVariable]
      simp [Variable.get_variable_reference, Val.ident]
    · simp only [FramesTracker.obtain_as_variable, hcache, mkObjectVariable,
        Variable.get_variable_reference, Val.ident]
      rw [dlookup_dinsert_self]
    · simp only [FramesTracker.obtain_as_variable, hcache, mkObjectVariable,
        Variable.get_variable_reference, Val.ident]
      rw [dlookup_dinsert_self]

/-- C1 witness: the theorem applied to a fresh tracker and the concrete
value `valX` (identity 100). -/
theorem claim_C1_witness :
    RegWF FramesTracker.init
    ∧ (FramesTracker.init.obtain_as_variable "x" valX
        none).1.get_variable_reference = valX.ident
    ∧ ((FramesTracker.init.obtain_as_variable "x" valX
        none).2.obtain_as_variable "y" valX none).1
        = (FramesTracker.init.obtain_as_variable "x" valX none).1
    ∧ ((FramesTracker.init.obtain_as_variable "x" valX
        none).2.obtain_as_variable "y" valX none).2
        = (FramesTracker.init.obtain_as_variable "x" valX none).2 :=
  ⟨by intro p hp; exact absurd hp (List.not_mem_nil p),
   (claim_C1_handle_stability FramesTracker.init
     (by intro p hp; exact absurd hp (List.not_mem_nil p)) "x" "y" valX
     none none).1,
   (claim_C1_handle_stability FramesTracker.init
     (by intro p hp; exact absurd hp (List.not_mem_nil p)) "x" "y" valX
     none none).2.1,
   (claim_C1_handle_stability FramesTracker.init
     (by intro p hp; exact absurd hp (List.not_mem_nil p)) "x" "y" valX
     none none).2.2.1⟩

/-- C9: when a node for the same value identity is already registered,
`obtain_as_variable` returns the cached node unchanged — its original name
and evaluable path — and leaves the tracker untouched; concretely, asking
for identity 7 under the name `other` returns the node still named
`orig`. -/
theorem claim_C9_obtain_ignores_name (tr : FramesTracker) (name : String)
    (value : PyVal) (evaluate_name : Option String) (var : Variable)
    (hc : dlookup tr.variable_reference_to_variable value.ident
      = some var) :
    (tr.obtain_as_variable name value evaluate_name).1 = var
    ∧ (tr.obtain_as_variable name value evaluate_name).2 = tr
    ∧ ((trOrig.obtain_as_variable "other" (.atom 7 "int" "1") none).1.name
        = "orig" ∧ "orig" ≠ "other") := by
  refine ⟨?_, ?_, by decide, by decide⟩
  · simp only [FramesTracker.obtain_as_variable, hc]
  · simp only [FramesTracker.obtain_as_variable, hc]

/-- C9 witness: the theorem applied to the tracker `trOrig`, which holds a
node named `orig` for identity 7; obtaining identity 7 under the name
`other` returns that node and changes nothing. -/
theorem claim_C9_witness :
    dlookup trOrig.variable_reference_to_variable 7 = some varOrig
    ∧ (trOrig.obtain_as_variable "other" (.atom 7 "int" "1") none).1
        = varOrig
    ∧ (trOrig.obtain_as_variable "other" (.atom 7 "int" "1") none).2
        = trOrig :=
  ⟨rfl,
   (claim_C9_obtain_ignores_name trOrig "other" (.atom 7 "int" "1") none
     varOrig rfl).1,
   (claim_C9_obtain_ignores_name trOrig "other" (.atom 7 "int" "1") none
     varOrig rfl).2.1⟩

/-- C4 counterexample: the claim says a second `get_children_variables`
call returns the cached sequence; in the code each call constructs fresh
node objects, so on the concrete one-entry container `contC` the second
call's children differ from the first call's. -/
theorem claim_C4_counterexample :
    (ObjectVariable.get_children_variables selfC
        ((ObjectVariable.get_children_variables selfC trC none).2) none).1
      ≠ (ObjectVariable.get_children_variables selfC trC none).1 := by
  intro h
  have hmap := congrArg (List.map Variable.nodeId) h
  revert hmap
  decide

/-- C4 (amended): for a non-container value `get_children_variables`
returns an empty sequence and leaves the tracker unchanged; for a container
every call computes the ordered child sequence afresh — one node per
resolver entry, sorted by attribute key, named by the key, with handle the
identity of the child value — re-registering the children, so a second call
returns equal handles but new node objects rather than a cached sequence. -/
theorem claim_C4_children_contract (self : Variable) (tr : FramesTracker)
    (fmt : Option Fmt) :
    (∀ i t s, self.value = .pv (.atom i t s) →
        ObjectVariable.get_children_variables self tr fmt = ([], tr))
    ∧ (∀ i t s entries, self.value = .pv (.container i t s entries) →
        (ObjectVariable.get_children_variables self tr fmt).1.map
            (fun v => (v.name, v.get_variable_reference, v.is_return_value))
          = (stableSort entryLe entries).map
              (fun p => (p.1, p.2.ident, false)))
    ∧ (∀ i t s e es, self.value = .pv (.container i t s (e :: es)) →
        (ObjectVariable.get_children_variables self
            ((ObjectVariable.get_children_variables self tr fmt).2) fmt).1
          ≠ (ObjectVariable.get_children_variables self tr fmt).1) := by
  refine ⟨?_, ?_, ?_⟩
  · intro i t s hv
    simp [ObjectVariable.get_children_variables, hv]
  · intro i t s entries hv
    simp only [ObjectVariable.get_children_variables, hv]
    rw [objectChildrenLoop_obs]
    rw [List.map_map]
    rfl
  · intro i t s e es hv heq
    have hmap := congrArg (List.map Variable.nodeId) heq
    simp only [ObjectVariable.get_children_variables, hv] at hmap
    rw [(objectChildrenLoop_nodeIds _ _ _).1,
      (objectChildrenLoop_nodeIds _ _ _).1,
      (objectChildrenLoop_nodeIds _ _ _).2] at hmap
    have hlen : ((stableSort entryLe (e :: es)).map
        (fun p => (p.1, p.2, (none : Option String)))).length
        = es.length + 1 := by
      rw [List.length_map, length_stableSort, List.length_cons]
    rw [hlen] at hmap
    rw [List.range'_succ, List.range'_succ] at hmap
    have hhead := congrArg List.head? hmap
    simp only [List.head?_cons, Option.some.injEq] at hhead
    omega

/-- C4 witness: the amended theorem applied to a non-container node and to
the concrete container node `selfC`. -/
theorem claim_C4_witness :
    ObjectVariable.get_children_variables
        ⟨9, "a", .pv (.atom 1 "int" "1"), none, false⟩ trC none = ([], trC)
    ∧ (ObjectVariable.get_children_variables selfC trC none).1.map
        (fun v => (v.name, v.get_variable_reference, v.is_return_value))
      = (stableSort entryLe [("a", .atom 3 "int" "1")]).map
          (fun p => (p.1, p.2.ident, false))
    ∧ (ObjectVariable.get_children_variables selfC
        ((ObjectVariable.get_children_variables selfC trC none).2) none).1
      ≠ (ObjectVariable.get_children_variables selfC trC none).1 :=
  ⟨(claim_C4_children_contract ⟨9, "a", .pv (.atom 1 "int" "1"), none,
      false⟩ trC none).1 1 "int" "1" rfl,
   (claim_C4_children_contract selfC trC none).2.1 20 "dict" "d"
     [("a", .atom 3 "int" "1")] rfl,
   (claim_C4_children_contract selfC trC none).2.2 20 "dict" "d"
     ("a", .atom 3 "int" "1") [] rfl⟩

/-- C7: a frame whose locals hold the synthetic return-values binding
yields, among its children, one node per captured return, named by the
return key, flagged as a return value, whose rendered data carries the
display name `(return) <name>`, the `readOnly` presentation attribute and
the evaluable path `<return-dict-key>[<repr of name>]`; and a frame whose
only local is the binding yields exactly one child per captured return. -/
theorem claim_C7_return_values (frame : Frame) (tr : FramesTracker)
    (fmt : Option Fmt) (bv : PyVal) (rk : String) (rv : PyVal)
    (hloc : (RETURN_VALUES_DICT, bv) ∈ frame.fLocals)
    (hitem : (rk, rv) ∈ bv.dictItems) :
    (∃ v ∈ (FrameVariable.get_children_variables frame tr fmt).1,
        v.name = rk ∧ v.is_return_value = true
        ∧ v.evaluate_name
            = some (RETURN_VALUES_DICT ++ "[" ++ pyReprStr rk ++ "]")
        ∧ (v.get_var_data fmt).name = "(return) " ++ rk
        ∧ "readOnly" ∈ (v.get_var_data fmt).attributes
        ∧ (v.get_var_data fmt).evaluateName
            = some (RETURN_VALUES_DICT ++ "[" ++ pyReprStr rk ++ "]"))
    ∧ (∀ (i : Nat) (nm : String) (bv2 : PyVal) (tr2 : FramesTracker)
        (fmt2 : Option Fmt),
        (FrameVariable.get_children_variables
            (.mk i nm [(RETURN_VALUES_DICT, bv2)] none) tr2 fmt2).1.length
          = bv2.dictItems.length) := by
  constructor
  · obtain ⟨v, hv, hname, hret, hen, hval⟩ :=
      frame_children_mem_return frame tr fmt bv rk rv hloc hitem
    obtain ⟨hdname, hdro, hden⟩ := get_var_data_return v fmt hret
    refine ⟨v, hv, hname, hret, hen, ?_, hdro, ?_⟩
    · rw [hdname, hname]
    · rw [hden, hen]
  · intro i nm bv2 tr2 fmt2
    have hobs := returnValuesLoop_obs tr2 RETURN_VALUES_DICT bv2.dictItems
    have hlen := congrArg List.length hobs
    simp only [List.length_map] at hlen
    simp only [FrameVariable.get_children_variables, Frame.fLocals,
      frameLocalsLoop, if_pos rfl]
    rw [length_stableSort, List.append_nil]
    exact hlen

/-- C7 witness: the theorem applied to the concrete frame `retFrame`,
whose synthetic return-values binding maps `foo` to 42. -/
theorem claim_C7_witness :
    (∃ v ∈ (FrameVariable.get_children_variables retFrame
        FramesTracker.init none).1,
      v.name = "foo" ∧ v.is_return_value = true
      ∧ v.evaluate_name
          = some (RETURN_VALUES_DICT ++ "[" ++ pyReprStr "foo" ++ "]")
      ∧ (v.get_var_data none).name = "(return) " ++ "foo"
      ∧ "readOnly" ∈ (v.get_var_data none).attributes
      ∧ (v.get_var_data none).evaluateName
          = some (RETURN_VALUES_DICT ++ "[" ++ pyReprStr "foo" ++ "]"))
    ∧ (FrameVariable.get_children_variables
        (.mk 31 "fn" [(RETURN_VALUES_DICT,
          .container 50 "dict" "d" [("foo", .atom 42 "int" "42")])] none)
        FramesTracker.init none).1.length
      = (PyVal.container 50 "dict" "d"
          [("foo", .atom 42 "int" "42")]).dictItems.length :=
  ⟨(claim_C7_return_values retFrame FramesTracker.init none
      (.container 50 "dict" "d" [("foo", .atom 42 "int" "42")]) "foo"
      (.atom 42 "int" "42") (.head _) (.head _)).1,
   (claim_C7_return_values retFrame FramesTracker.init none
      (.container 50 "dict" "d" [("foo", .atom 42 "int" "42")]) "foo"
      (.atom 42 "int" "42") (.head _) (.head _)).2 31 "fn"
      (.container 50 "dict" "d" [("foo", .atom 42 "int" "42")])
      FramesTracker.init none⟩

/-- C8: `find_frame` checks, in order, the wildcard id `"*"` (returning
the currently executing frame), then the fabricated-frame table for the
thread (a registered fabricated frame wins even when the tracker also
knows the id), then delegates to the thread's tracker, returning `None`
when none applies; an id the lookup cannot parse is caught by the bare
`except` and also yields `None` instead of an exception. -/
theorem claim_C8_find_frame (w : World) (current_frame : Frame)
    (thread_id : String) :
    (SuspendedFramesManager.find_frame w current_frame thread_id .star
      = some current_frame)
    ∧ (SuspendedFramesManager.find_frame w current_frame thread_id
        .malformed = none)
    ∧ (∀ (fid : Nat) (fr : Frame),
        (dlookup w.thread_id_to_fake_frames thread_id).bind
            (fun fake_frames => dlookup fake_frames fid) = some fr →
        SuspendedFramesManager.find_frame w current_frame thread_id
          (.num fid) = some fr)
    ∧ (∀ fid : Nat,
        (dlookup w.thread_id_to_fake_frames thread_id).bind
            (fun fake_frames => dlookup fake_frames fid) = none →
        SuspendedFramesManager.find_frame w current_frame thread_id
          (.num fid) = findFrameViaTracker w thread_id fid)
    ∧ (∀ (fid : Nat) (fr : Frame),
        SuspendedFramesManager.find_frame
          (SuspendedFramesManager.add_fake_frame w thread_id fid fr)
          current_frame thread_id (.num fid) = some fr) := by
  refine ⟨rfl, rfl, ?_, ?_, ?_⟩
  · intro fid fr hf
    cases hff : dlookup w.thread_id_to_fake_frames thread_id with
    | none => rw [hff] at hf; exact Option.noConfusion hf
    | some fake_frames =>
      rw [hff] at hf
      simp only [Option.some_bind] at hf
      simp [SuspendedFramesManager.find_frame, hff, hf]
  · intro fid hf
    cases hff : dlookup w.thread_id_to_fake_frames thread_id with
    | none => simp [SuspendedFramesManager.find_frame, hff]
    | some fake_frames =>
      rw [hff] at hf
      simp only [Option.some_bind] at hf
      simp [SuspendedFramesManager.find_frame, hff, hf]
  · intro fid fr
    rw [SuspendedFramesManager.find_frame,
      SuspendedFramesManager.add_fake_frame]
    simp only [dlookup_dinsert_self, dlookup_dinsert_self]

/-- C8 witness: in the world `w8` thread `T1` has both a fabricated frame
and a tracked frame under id 11; the fabricated one wins, the wildcard
returns the current frame, an unparsable id yields `None`, and without a
fabricated entry the tracker's frame is delegated to. -/
theorem claim_C8_witness :
    SuspendedFramesManager.find_frame w8 curFrame "T1" .star
      = some curFrame
    ∧ SuspendedFramesManager.find_frame w8 curFrame "T1" .malformed = none
    ∧ SuspendedFramesManager.find_frame w8 curFrame "T1" (.num 11)
      = some (.mk 99 "fake" [] none)
    ∧ SuspendedFramesManager.find_frame wA curFrame "T1" (.num 11)
      = findFrameViaTracker wA "T1" 11 :=
  ⟨(claim_C8_find_frame w8 curFrame "T1").1,
   (claim_C8_find_frame w8 curFrame "T1").2.1,
   (claim_C8_find_frame w8 curFrame "T1").2.2.1 11 (.mk 99 "fake" [] none)
     rfl,
   (claim_C8_find_frame wA curFrame "T1").2.2.2.1 11 rfl⟩

/-- C5: `track` walks the frame chain from the top frame via the caller
link until exhausted and appends each frame's id to the effective id's
list in that order, so the stored list is the chain's ids topmost first;
consequently `get_topmost_frame_and_frame_id_to_line` on the effective id
returns the top frame together with the line-override map, and on an id
with no recorded frame list it returns nothing. -/
theorem claim_C5_frame_walk (w : World) (trid : Nat) (thread_id : String)
    (frame : Frame) (lineno : List (Nat × Nat)) (custom : Option String)
    (hfresh : dlookup ((w.tracker trid).thread_id_to_frame_ids)
        (custom.getD thread_id) = none)
    (hnd : ((frameChain frame).map Frame.ident).Nodup) :
    dlookup ((FramesTracker.track w trid thread_id frame lineno
        custom).tracker trid).thread_id_to_frame_ids (custom.getD thread_id)
      = some ((frameChain frame).map Frame.ident)
    ∧ ((FramesTracker.track w trid thread_id frame lineno custom).tracker
        trid).get_topmost_frame_and_frame_id_to_line (custom.getD thread_id)
      = .ok (some (frame, lineno))
    ∧ (∀ (tr : FramesTracker) (tid' : String),
        dlookup tr.thread_id_to_frame_ids tid' = none →
        tr.get_topmost_frame_and_frame_id_to_line tid' = .ok none) := by
  have htids := track_tids w trid thread_id frame lineno custom hfresh
  refine ⟨htids, ?_, ?_⟩
  · obtain ⟨rest, hchain⟩ := frameChain_head frame
    rw [FramesTracker.get_topmost_frame_and_frame_id_to_line, htids, hchain]
    simp only [List.map_cons]
    rw [track_frame_map]
    rw [foldl_dinsert_frame_lookup_mem (frameChain frame) _ frame
      (self_mem_frameChain frame) hnd]
    rw [track_lineno]
  · intro tr tid' hnone
    rw [FramesTracker.get_topmost_frame_and_frame_id_to_line, hnone]

/-- C5 witness: tracking the two-frame chain `chainFrame` (top id 61,
caller id 62) for thread `T1` stores the list `[61, 62]` and the topmost
lookup returns the top frame with the line map. -/
theorem claim_C5_witness :
    dlookup ((FramesTracker.track World.init 1 "T1" chainFrame [(61, 5)]
        none).tracker 1).thread_id_to_frame_ids "T1"
      = some ((frameChain chainFrame).map Frame.ident)
    ∧ ((FramesTracker.track World.init 1 "T1" chainFrame [(61, 5)]
        none).tracker 1).get_topmost_frame_and_frame_id_to_line "T1"
      = .ok (some (chainFrame, [(61, 5)]))
    ∧ (frameChain chainFrame).map Frame.ident = [61, 62] :=
  ⟨(claim_C5_frame_walk World.init 1 "T1" chainFrame [(61, 5)] none rfl
      (by decide)).1,
   (claim_C5_frame_walk World.init 1 "T1" chainFrame [(61, 5)] none rfl
      (by decide)).2.1,
   by decide⟩

/-- C6: for every frame handle of a session tracked under sub-execution id
`C` attached to real thread `T`, `get_thread_id_for_variable_reference`
returns `T` — the tracker's main thread id — and not `C`; and when no
tracker owns a handle the routing lookup yields nothing. -/
theorem claim_C6_routing (w : World) (trid : Nat) (T C : String)
    (frame : Frame) (lineno : List (Nat × Nat)) (h : Nat)
    (hh : h ∈ (frameChain frame).map Frame.ident) :
    SuspendedFramesManager.get_thread_id_for_variable_reference
        (FramesTracker.track w trid T frame lineno (some C)) h = some T
    ∧ (∀ (w₀ : World) (h₀ : Nat),
        SuspendedFramesManager._get_tracker_for_variable_reference w₀ h₀
          = none →
        SuspendedFramesManager.get_thread_id_for_variable_reference w₀ h₀
          = none) := by
  constructor
  · have hidx := track_index_mem w trid T frame lineno (some C) h hh
    rw [SuspendedFramesManager.get_thread_id_for_variable_reference,
      get_tracker_of_index _ _ _ hidx]
    exact track_main w trid T frame lineno (some C)
  · intro w₀ h₀ hnone
    rw [SuspendedFramesManager.get_thread_id_for_variable_reference, hnone]

/-- C6 witness: tracking `frameA` (id 11) for real thread `T` under the
sub-execution id `C` routes handle 11 to `T`. -/
theorem claim_C6_witness :
    SuspendedFramesManager.get_thread_id_for_variable_reference
        (FramesTracker.track World.init 1 "T" frameA [] (some "C")) 11
      = some "T"
    ∧ "T" ≠ "C" :=
  ⟨(claim_C6_routing World.init 1 "T" "C" frameA [] 11 (by decide)).1,
   by decide⟩

/-- C3: the first `untrack_all` removes every thread id and every frame id
this tracker registered from the manager's two indices and clears all
internal tables; a second call is a no-op returning without error, and a
call on an already-untracked tracker never fails, so redundant teardown and
teardown after partial construction are safe. -/
theorem claim_C3_idempotent_teardown (w : World) (trid : Nat)
    (hthnd : (w.thread_id_to_tracker.map Prod.fst).Nodup)
    (hidxnd : (w.variable_reference_to_frames_tracker.map Prod.fst).Nodup)
    (hfnd : (((w.tracker trid).frame_id_to_frame).map Prod.fst).Nodup)
    (hsub : ∀ r ∈ (w.tracker trid).frame_id_to_frame,
        (dlookup w.variable_reference_to_frames_tracker r.1).isSome = true)
    (huntr : (w.tracker trid).untracked = false) :
    (FramesTracker.untrack_all w trid).isOk = true
    ∧ (∀ p ∈ (w.tracker trid).thread_id_to_frame_ids,
        dlookup (untrackResult w trid).thread_id_to_tracker p.1 = none)
    ∧ (∀ r ∈ (w.tracker trid).frame_id_to_frame,
        dlookup (untrackResult w trid).variable_reference_to_frames_tracker
          r.1 = none)
    ∧ ((untrackResult w trid).tracker trid).frame_id_to_frame = []
    ∧ ((untrackResult w trid).tracker trid).thread_id_to_frame_ids = []
    ∧ ((untrackResult w trid).tracker trid).frame_id_to_main_thread_id = []
    ∧ ((untrackResult w trid).tracker trid).frame_id_to_lineno = []
    ∧ ((untrackResult w trid).tracker
        trid).variable_reference_to_variable = []
    ∧ ((untrackResult w trid).tracker trid).main_thread_id = none
    ∧ FramesTracker.untrack_all (untrackResult w trid) trid
        = .ok (untrackResult w trid)
    ∧ (∀ (w₀ : World) (trid₀ : Nat), (w₀.tracker trid₀).untracked = true →
        FramesTracker.untrack_all w₀ trid₀ = .ok w₀) := by
  obtain ⟨m', hdel, heq, hms, hnone, hkeep⟩ :=
    untrack_all_spec w trid huntr hidxnd hfnd hsub
  have hres : untrackResult w trid =
      { thread_id_to_fake_frames := w.thread_id_to_fake_frames
        thread_id_to_tracker := popAll w.thread_id_to_tracker
          ((w.tracker trid).thread_id_to_frame_ids.map Prod.fst)
        variable_reference_to_frames_tracker := m'
        trackers := dinsert w.trackers trid
          { frame_id_to_frame := []
            frame_id_to_main_thread_id := []
            thread_id_to_frame_ids := []
            frame_id_to_lineno := []
            main_thread_id := none
            untracked := true
            variable_reference_to_variable := []
            nextNodeId := (w.tracker trid).nextNodeId } } := by
    rw [untrackResult, heq]
  have htr : (untrackResult w trid).tracker trid =
      { frame_id_to_frame := []
        frame_id_to_main_thread_id := []
        thread_id_to_frame_ids := []
        frame_id_to_lineno := []
        main_thread_id := none
        untracked := true
        variable_reference_to_variable := []
        nextNodeId := (w.tracker trid).nextNodeId } := by
    rw [hres]
    exact tracker_of_dlookup _ _ _ (dlookup_dinsert_self _ _ _)
  refine ⟨by rw [heq]; rfl, ?_, ?_, by rw [htr], by rw [htr], by rw [htr],
    by rw [htr], by rw [htr], by rw [htr], ?_, ?_⟩
  · intro p hp
    rw [hres]
    rw [popAll_lookup _ _ _ hthnd,
      if_pos (List.mem_map_of_mem Prod.fst hp)]
  · intro r hr
    rw [hres]
    exact hnone r.1 (List.mem_map_of_mem Prod.fst hr)
  · exact untrack_noop _ trid (by rw [htr])
  · intro w₀ trid₀ h₀
    exact untrack_noop w₀ trid₀ h₀

/-- C3 witness: the theorem applied to the concrete session world `wB`
(tracker 1 holding thread `T1` and frame 11). -/
theorem claim_C3_witness :
    (FramesTracker.untrack_all wB 1).isOk = true
    ∧ dlookup (untrackResult wB 1).thread_id_to_tracker "T1" = none
    ∧ dlookup (untrackResult wB 1).variable_reference_to_frames_tracker 11
        = none
    ∧ ((untrackResult wB 1).tracker 1).variable_reference_to_variable = []
    ∧ FramesTracker.untrack_all (untrackResult wB 1) 1
        = .ok (untrackResult wB 1) :=
  ⟨(claim_C3_idempotent_teardown wB 1 (by decide) (by decide) (by decide)
      (by decide) (by decide)).1,
   (claim_C3_idempotent_teardown wB 1 (by decide) (by decide) (by decide)
      (by decide) (by decide)).2.1 ("T1", [11]) (by decide),
   (claim_C3_idempotent_teardown wB 1 (by decide) (by decide) (by decide)
      (by decide) (by decide)).2.2.1 (11, frameA)
     (by exact List.Mem.head _),
   (claim_C3_idempotent_teardown wB 1 (by decide) (by decide) (by decide)
      (by decide) (by decide)).2.2.2.2.2.2.2.1,
   (claim_C3_idempotent_teardown wB 1 (by decide) (by decide) (by decide)
      (by decide) (by decide)).2.2.2.2.2.2.2.2.2.1⟩

/-- C10: in the initial world, after every `track` of frames that are new
to the index (or re-tracked by the same tracker), and after every
`untrack_all`, the keys of each tracker's `_frame_id_to_frame` table are
exactly the frame ids the manager's shared index maps to that tracker;
`untrack_all` relies on this equality when it deletes each of its frame
ids from the shared index without a missing-key guard, and under the
invariant that deletion indeed never fails. -/
theorem claim_C10_index_invariant :
    TrackerIndexInv World.init
    ∧ (∀ (w : World) (trid : Nat) (thread_id : String) (frame : Frame)
        (lineno : List (Nat × Nat)) (custom : Option String),
        TrackerIndexInv w →
        (∀ f ∈ frameChain frame,
            dlookup w.variable_reference_to_frames_tracker f.ident = none ∨
            dlookup w.variable_reference_to_frames_tracker f.ident
              = some trid) →
        TrackerIndexInv
          (FramesTracker.track w trid thread_id frame lineno custom))
    ∧ (∀ (w : World) (trid : Nat), TrackerIndexInv w →
        (FramesTracker.untrack_all w trid).isOk = true
        ∧ TrackerIndexInv (untrackResult w trid)) :=
  ⟨inv_init,
   fun w trid thread_id frame lineno custom hinv hfresh =>
     inv_track w trid thread_id frame lineno custom hinv hfresh,
   fun w trid hinv => inv_untrack w trid hinv⟩

/-- C10 witness: the invariant holds for the concrete session world `wB`,
is preserved when tracker 2 tracks the fresh frame `frameB`, and
`untrack_all` of tracker 1 succeeds preserving it. -/
theorem claim_C10_witness :
    TrackerIndexInv wB
    ∧ TrackerIndexInv (FramesTracker.track wB 2 "T2" frameB [] none)
    ∧ (FramesTracker.untrack_all wB 1).isOk = true
    ∧ TrackerIndexInv (untrackResult wB 1) :=
  ⟨by decide,
   claim_C10_index_invariant.2.1 wB 2 "T2" frameB [] none (by decide)
     (by decide),
   (claim_C10_index_invariant.2.2 wB 1 (by decide)).1,
   (claim_C10_index_invariant.2.2 wB 1 (by decide)).2⟩

theorem isSome_false_eq_none {α : Type} {o : Option α}
    (h : o.isSome = false) : o = none := by
  cases o
  · rfl
  · simp at h

/-- C2 counterexample: handle 100 is registered in session 1 (`wB`) and
session 1 is then closed, yet after a later session registers a value whose
identity is numerically the same 100, `get_variable(100)` succeeds instead
of raising `KeyError`, and `get_thread_id_for_variable_reference(100)`
returns the later session's thread instead of `None` — refuting the claim
that handles of a closed session are NotFound even when a numerically
coincident handle exists in a later session. -/
theorem claim_C2_counterexample :
    (dlookup (wB.tracker 1).variable_reference_to_variable 100).isSome
      = true
    ∧ (FramesTracker.untrack_all wB 1).isOk = true
    ∧ (SuspendedFramesManager.get_variable wE 100).isOk = true
    ∧ SuspendedFramesManager.get_thread_id_for_variable_reference wE 100
      = some "T2" := by
  refine ⟨by decide, by decide, by decide, by decide⟩

/-- C2 (amended): after a tracker's `untrack_all` has run, its handle
table is empty and neither the manager's tracker map nor its handle index
mentions the tracker any more, so `get_variable` raises `KeyError` and
`get_thread_id_for_variable_reference` returns `None` for every handle of
that session that no other active tracker coincidentally holds; in
general the two lookups fail exactly when neither the handle index nor
the scan over active trackers finds an owner. -/
theorem claim_C2_session_isolation (w : World) (trid h : Nat)
    (hinv : TrackerIndexInv w)
    (hthnd : (w.thread_id_to_tracker.map Prod.fst).Nodup)
    (hthr : ∀ p ∈ w.thread_id_to_tracker, p.2 = trid →
        (dlookup ((w.tracker trid).thread_id_to_frame_ids) p.1).isSome
          = true)
    (huntr : (w.tracker trid).untracked = false) :
    (FramesTracker.untrack_all w trid).isOk = true
    ∧ ((untrackResult w trid).tracker trid).variable_reference_to_variable
        = []
    ∧ (∀ tid : String,
        dlookup (untrackResult w trid).thread_id_to_tracker tid
          ≠ some trid)
    ∧ (∀ k : Nat,
        dlookup (untrackResult w trid).variable_reference_to_frames_tracker
          k ≠ some trid)
    ∧ (((dlookup (untrackResult w trid).variable_reference_to_frames_tracker
          h).isSome = false
        ∧ (∀ p ∈ (untrackResult w trid).thread_id_to_tracker,
            (dlookup ((untrackResult w trid).tracker
              p.2).variable_reference_to_variable h).isSome = false)) →
      SuspendedFramesManager.get_variable (untrackResult w trid) h
          = .error ()
        ∧ SuspendedFramesManager.get_thread_id_for_variable_reference
            (untrackResult w trid) h = none) := by
  obtain ⟨h1, h2, h3, h4, h5⟩ := hinv
  have hfnd := inv_tracker_frame_nodup w trid ⟨h1, h2, h3, h4, h5⟩
  have h4' := inv_tracker_frame_idx w trid ⟨h1, h2, h3, h4, h5⟩
  have hsub : ∀ r ∈ (w.tracker trid).frame_id_to_frame,
      (dlookup w.variable_reference_to_frames_tracker r.1).isSome
        = true := by
    intro r hr
    rw [h4' r hr]
    rfl
  obtain ⟨m', hdel, heq, hms, hnone, hkeep⟩ :=
    untrack_all_spec w trid huntr h1 hfnd hsub
  have hres : untrackResult w trid =
      { thread_id_to_fake_frames := w.thread_id_to_fake_frames
        thread_id_to_tracker := popAll w.thread_id_to_tracker
          ((w.tracker trid).thread_id_to_frame_ids.map Prod.fst)
        variable_reference_to_frames_tracker := m'
        trackers := dinsert w.trackers trid
          { frame_id_to_frame := []
            frame_id_to_main_thread_id := []
            thread_id_to_frame_ids := []
            frame_id_to_lineno := []
            main_thread_id := none
            untracked := true
            variable_reference_to_variable := []
            nextNodeId := (w.tracker trid).nextNodeId } } := by
    rw [untrackResult, heq]
  have htr : (untrackResult w trid).tracker trid =
      { frame_id_to_frame := []
        frame_id_to_main_thread_id := []
        thread_id_to_frame_ids := []
        frame_id_to_lineno := []
        main_thread_id := none
        untracked := true
        variable_reference_to_variable := []
        nextNodeId := (w.tracker trid).nextNodeId } := by
    rw [hres]
    exact tracker_of_dlookup _ _ _ (dlookup_dinsert_self _ _ _)
  refine ⟨by rw [heq]; rfl, by rw [htr], ?_, ?_, ?_⟩
  · intro tid hcontra
    rw [hres] at hcontra
    rw [popAll_lookup _ _ _ hthnd] at hcontra
    by_cases hmem : tid ∈
        ((w.tracker trid).thread_id_to_frame_ids).map Prod.fst
    · rw [if_pos hmem] at hcontra
      exact Option.noConfusion hcontra
    · rw [if_neg hmem] at hcontra
      have hp : (tid, trid) ∈ w.thread_id_to_tracker :=
        dlookup_mem hcontra
      have := hthr (tid, trid) hp rfl
      exact hmem ((dlookup_isSome_iff _ _).mp this)
  · intro k hcontra
    rw [hres] at hcontra
    by_cases hmem : k ∈ ((w.tracker trid).frame_id_to_frame).map Prod.fst
    · rw [hnone k hmem] at hcontra
      exact Option.noConfusion hcontra
    · rw [hkeep k hmem] at hcontra
      have hp : (k, trid) ∈ w.variable_reference_to_frames_tracker :=
        dlookup_mem hcontra
      have hhas := h3 (k, trid) hp
      rw [trackerHasFrame] at hhas
      exact hmem ((dlookup_isSome_iff _ _).mp hhas)
  · intro hcond
    have hidx0 := isSome_false_eq_none hcond.1
    have hscan0 : ∀ p ∈ (untrackResult w trid).thread_id_to_tracker,
        dlookup ((untrackResult w trid).tracker
          p.2).variable_reference_to_variable h = none :=
      fun p hp => isSome_false_eq_none (hcond.2 p hp)
    exact ⟨get_variable_error _ _ hidx0 hscan0,
      get_thread_id_none _ _ hidx0 hscan0⟩

/-- C2 witness: the amended theorem applied to the concrete session world
`wB`; after closing session 1, handle 100 (registered only there) is
NotFound for both lookups. -/
theorem claim_C2_witness :
    (FramesTracker.untrack_all wB 1).isOk = true
    ∧ ((untrackResult wB 1).tracker 1).variable_reference_to_variable = []
    ∧ dlookup (untrackResult wB 1).thread_id_to_tracker "T1" ≠ some 1
    ∧ dlookup (untrackResult wB 1).variable_reference_to_frames_tracker 11
        ≠ some 1
    ∧ SuspendedFramesManager.get_variable (untrackResult wB 1) 100
        = .error ()
    ∧ SuspendedFramesManager.get_thread_id_for_variable_reference
        (untrackResult wB 1) 100 = none :=
  ⟨(claim_C2_session_isolation wB 1 100 (by decide) (by decide) (by decide)
      (by decide)).1,
   (claim_C2_session_isolation wB 1 100 (by decide) (by decide) (by decide)
      (by decide)).2.1,
   (claim_C2_session_isolation wB 1 100 (by decide) (by decide) (by decide)
      (by decide)).2.2.1 "T1",
   (claim_C2_session_isolation wB 1 100 (by decide) (by decide) (by decide)
      (by decide)).2.2.2.1 11,
   ((claim_C2_session_isolation wB 1 100 (by decide) (by decide)
      (by decide) (by decide)).2.2.2.2 ⟨by decide, by decide⟩).1,
   ((claim_C2_session_isolation wB 1 100 (by decide) (by decide)
      (by decide) (by decide)).2.2.2.2 ⟨by decide, by decide⟩).2⟩
